import Mathlib

/-!
Verification of the document-organizer core (Johnny.Decimal classification
and organization engine) against its natural-language specification.

The Python sources `document_organizer.py` and `jd_system.py` are shallowly
embedded below: pure functions become Lean functions, the persisted JSON
documents (allocator state, hash index, search index, processed ledger)
become explicit state records threaded through the operations, and the
filesystem is modelled as an association list from paths to content hashes.
Python `dict`s are modelled as association lists in insertion order;
`str.lower` and the whitespace/digit character classes are modelled on their
ASCII fragment, which is the fragment the keyword lists and identifier
formats exercise.
-/

/-! ### Python string primitives -/

/-- ASCII whitespace as recognised by Python `str.split()` / `str.strip()`. -/
def pyIsSpace (c : Char) : Bool :=
  c.toNat = 32 || c.toNat = 9 || c.toNat = 10 || c.toNat = 13 ||
  c.toNat = 11 || c.toNat = 12

/-- ASCII decimal digit, the fragment of `str.isdigit` and `\d` used here. -/
def pyIsDigit (c : Char) : Bool :=
  48 ≤ c.toNat && c.toNat ≤ 57

/-- Numeric value of a digit character. -/
def digitVal (c : Char) : Nat := c.toNat - 48

/-- Decide whether `needle` is a prefix of `haystack` (on character lists). -/
def leadsWith : List Char → List Char → Bool
  | [], _ => true
  | _ :: _, [] => false
  | a :: n, b :: h => a = b && leadsWith n h

/-- Python's substring test `needle in haystack`. -/
def pyContains (haystack needle : String) : Bool :=
  (List.range (haystack.length + 1)).any fun i =>
    leadsWith needle.data (haystack.data.drop i)

/-- Python's `str.startswith`. -/
def pyStartsWith (s p : String) : Bool := leadsWith p.data s.data

/-- Python's `str.endswith`. -/
def pyEndsWith (s p : String) : Bool := leadsWith p.data.reverse s.data.reverse

/-- Python's `str.lower` (ASCII fragment). -/
def pyLower (s : String) : String := String.mk (s.data.map Char.toLower)

/-- Python's `str.strip()` with no argument: trim whitespace on both ends. -/
def pyStrip (s : String) : String :=
  String.mk (((s.data.dropWhile pyIsSpace).reverse.dropWhile pyIsSpace).reverse)

/-- Python's `str.rstrip(chars)`: trim trailing characters from `set`. -/
def pyRstripSet (s : String) (set : List Char) : String :=
  String.mk ((s.data.reverse.dropWhile (fun c => set.contains c)).reverse)

/-- Take the first `n` characters, Python slice `s[:n]`. -/
def pyTakeStr (s : String) (n : Nat) : String := String.mk (s.data.take n)

/-- Drop the first `n` characters, Python slice `s[n:]`. -/
def pyDropStr (s : String) (n : Nat) : String := String.mk (s.data.drop n)

/-- First whitespace-separated token, Python `s.split()[0]` (empty when the
string holds no token, where Python would raise `IndexError`). -/
def firstToken (s : String) : String :=
  String.mk ((s.data.dropWhile pyIsSpace).takeWhile (fun c => !pyIsSpace c))

/-! ### Decimal formatting (Python `f-string` numerals) -/

/-- Fuelled decimal-digit extraction; the fuel only pays for termination and
`decDigits` always supplies enough of it. -/
def decDigitsGo : Nat → Nat → List Nat
  | 0, _ => []
  | fuel + 1, n => if n < 10 then [n] else decDigitsGo fuel (n / 10) ++ [n % 10]

/-- Decimal digit list of a natural number, most significant first. -/
def decDigits (n : Nat) : List Nat := decDigitsGo (n + 1) n

/-- Character of one decimal digit. -/
def decDigitChar (d : Nat) : Char := Char.ofNat (48 + d)

/-- Python's decimal rendering `str(n)` of a natural number. -/
def natDecimal (n : Nat) : String := String.mk ((decDigits n).map decDigitChar)

/-- Python's `f"{n:02d}"`: decimal, zero-padded to width two. -/
def pad2 (n : Nat) : String :=
  if n < 10 then "0" ++ natDecimal n else natDecimal n

/-- Evaluate a digit list back to the number it denotes. -/
def digitsVal (l : List Nat) : Nat := l.foldl (fun a d => a * 10 + d) 0

/-! ### Association lists (Python `dict` in insertion order) -/

/-- Lookup in an association list, first match wins (Python `d.get(k)`). -/
def alookup {α : Type} : List (String × α) → String → Option α
  | [], _ => none
  | p :: t, k => if p.1 = k then some p.2 else alookup t k

/-- Python `d[k] = v`: replace in place when the key is present, else append. -/
def dictSet {α : Type} (l : List (String × α)) (k : String) (v : α) :
    List (String × α) :=
  if (alookup l k).isSome then
    l.map (fun p => if p.1 = k then (k, v) else p)
  else l ++ [(k, v)]


/-! ### IdAllocator (`get_or_create_jd_id` in document_organizer.py)

The persisted `.jd_ids.json` document maps category names to a record
`{next_id, mappings}`; `load_jd_ids`/`save_jd_ids` become the input and
output states of the allocation step. -/

/-- Per-category allocator record `{"next_id": ..., "mappings": {...}}`. -/
structure CatState where
  next_id : Nat
  mappings : List (String × String)
deriving DecidableEq

/-- The whole `.jd_ids.json` document, keyed by category name. -/
abbrev IdState := List (String × CatState)

/-- Allocation key, Python `f"{correspondent}_{year}"`. -/
def jdKey (correspondent year : String) : String := correspondent ++ "_" ++ year

/-- Find the identifier already assigned to a key within a category. -/
def mappingLookup (s : IdState) (cat key : String) : Option String :=
  alookup ((alookup s cat).getD ⟨1, []⟩).mappings key

/-- Current sequence counter of a category (a missing category starts at 1). -/
def nextIdOf (s : IdState) (cat : String) : Nat :=
  ((alookup s cat).getD ⟨1, []⟩).next_id

/-- Embedding of `get_or_create_jd_id`.  The returned state is the persisted
`.jd_ids.json` after the call: on the early-return path `save_jd_ids` is not
called, so the persisted state is returned unchanged (the in-memory category
initialisation is discarded); on the fresh path the mapping is stored and the
counter bumped before the identifier is returned. -/
def get_or_create_jd_id (s : IdState) (jd_category correspondent year : String) :
    String × IdState :=
  let catSt := (alookup s jd_category).getD ⟨1, []⟩
  let key := jdKey correspondent year
  match alookup catSt.mappings key with
  | some jdId => (jdId, s)
  | none =>
      let catNum := firstToken jd_category
      let idNum := catSt.next_id
      let jdId := catNum ++ "." ++ pad2 idNum
      (jdId, dictSet s jd_category ⟨idNum + 1, dictSet catSt.mappings key jdId⟩)

/-- Run a sequence of allocations, keeping only the final persisted state. -/
def allocRun (s : IdState) (ops : List (String × String × String)) : IdState :=
  ops.foldl (fun st op => (get_or_create_jd_id st op.1 op.2.1 op.2.2).2) s

/-! ### Keyword categorizer (`categorize_with_keywords` in document_organizer.py) -/

/-- A taxonomy in the `JD_AREAS` shape: area name to categories, each category
carrying its keyword list. -/
abbrev Taxonomy := List (String × List (String × List String))

/-- Result dictionary of one categorization attempt.  Fields absent from the
Python dict (e.g. `issuer` in the keyword backend's result) are `none`. -/
structure Analysis where
  jd_area : Option String := none
  jd_category : Option String := none
  document_type : Option String := none
  issuer : Option String := none
  subject_person : Option String := none
  correspondent : Option String := none
  date_mentioned : Option String := none
  tags : List String := []
  entities : List String := []
  confidence : String := ""
  summary : String := ""
deriving DecidableEq

/-- The built-in Johnny.Decimal taxonomy (`JD_AREAS`). -/
def JD_AREAS : Taxonomy := [
  ("00-09 System", [
    ("00 Index", []),
    ("01 Inbox", []),
    ("02 Templates", ["template"]),
    ("09 Uncategorized", [])]),
  ("10-19 Finance", [
    ("11 Banking", ["bank", "account", "transfer", "statement", "balance", "sparkasse", "commerzbank"]),
    ("12 Taxes", ["tax", "steuer", "finanzamt", "steuererklärung", "w-2", "1099"]),
    ("13 Insurance", ["insurance", "versicherung", "policy", "premium", "coverage", "claim"]),
    ("14 Receipts", ["receipt", "quittung", "kassenbon", "purchase", "bought", "paid"]),
    ("15 Investments", ["investment", "stock", "portfolio", "dividend", "brokerage"]),
    ("16 Housing", ["rent", "miete", "wohnung", "apartment", "housing", "utility", "strom", "gas", "internet"])]),
  ("20-29 Medical", [
    ("21 Records", ["medical", "doctor", "patient", "diagnosis", "hospital", "clinic", "arzt", "krankenhaus", "lab", "blood", "test"]),
    ("22 Insurance", ["health insurance", "krankenversicherung", "aok", "tk", "barmer"]),
    ("23 Prescriptions", ["prescription", "rezept", "medication", "pharmacy", "apotheke"]),
    ("25 Vision", ["eye", "vision", "optiker", "glasses", "brille", "dental", "zahnarzt", "tooth", "dentist"]),
    ("26 Bills", ["medical bill", "arztrechnung", "hospital bill", "healthcare cost"])]),
  ("30-39 Legal", [
    ("31 Contracts", ["contract", "vertrag", "agreement", "vereinbarung", "signed", "parties", "terms"]),
    ("32 Property", ["property", "immobilie", "deed", "lease", "miete", "wohnung", "grundbuch"]),
    ("33 Identity", ["passport", "reisepass", "id", "ausweis", "license", "führerschein", "birth", "geburt"]),
    ("34 Warranties", ["warranty", "garantie", "guarantee"])]),
  ("40-49 Work", [
    ("41 Employment", ["employment", "arbeit", "job", "arbeitsvertrag", "hr", "contract"]),
    ("42 Expenses", ["expense", "reimbursement", "spesen", "erstattung"]),
    ("43 Projects", ["project", "projekt", "report", "bericht", "presentation", "documentation"]),
    ("44 Certifications", ["certification", "zertifikat", "professional", "training"]),
    ("45 Salary & Payments", ["salary", "gehalt", "payslip", "lohnabrechnung", "payment", "bonus", "compensation"])]),
  ("50-59 Personal", [
    ("51 Education", ["education", "school", "schule", "university", "universität", "degree", "diploma", "course", "kurs", "grade"]),
    ("52 Travel", ["travel", "reise", "flight", "flug", "hotel", "booking", "itinerary"]),
    ("53 Certificates", ["certificate", "urkunde", "marriage", "heirat"]),
    ("54 Memberships", ["membership", "mitgliedschaft", "club", "verein", "subscription"]),
    ("55 Operation Manual", ["manual", "anleitung", "instruction", "guide", "handbuch", "user guide"]),
    ("56 Health and Wellbeing", ["health", "wellness", "fitness", "nutrition", "exercise", "mental health"]),
    ("57 IDs", ["id card", "identification", "badge", "employee id", "student id"])]),
  ("90-99 Archive", [
    ("91 2024", []),
    ("92 2023", [])])]

/-- The module-level flat keyword table (`JD_KEYWORDS`), derived from
`JD_AREAS` over all areas including system and archive. -/
def JD_KEYWORDS : List ((String × String) × List String) :=
  JD_AREAS.flatMap (fun a => a.2.map (fun c => ((a.1, c.1), c.2)))

/-- Score table in enumeration order: every (area, category) pair outside the
excluded system and archive areas, scored by the count of its keywords that
occur as substrings of the lower-cased text. -/
def scoresList (textLower : String) (jd_areas : Taxonomy) :
    List ((String × String) × Nat) :=
  (jd_areas.filter (fun a => a.1 != "00-09 System" && a.1 != "90-99 Archive")).flatMap
    (fun a => a.2.map (fun c => ((a.1, c.1), c.2.countP (fun kw => pyContains textLower kw))))

/-- Python's `max(xs, key=...)` over (key, score) pairs: the first pair whose
score no later pair strictly exceeds. -/
def pyMaxBy {α : Type} : List (α × Nat) → Option (α × Nat)
  | [] => none
  | p :: t => some (t.foldl (fun b q => if b.2 < q.2 then q else b) p)

/-- Tag extraction loop over the global `JD_KEYWORDS` table: keywords of any
category that occur in the text, first occurrence kept, capped at 10. -/
def keywordTags (textLower : String) : List String :=
  (JD_KEYWORDS.foldl
    (fun acc p => p.2.foldl
      (fun acc2 kw =>
        if pyContains textLower kw && !(acc2.contains kw) then acc2 ++ [kw] else acc2)
      acc)
    []).take 10

/-- Embedding of `categorize_with_keywords`. -/
def categorize_with_keywords (text : String) (jd_areas : Taxonomy) : Analysis :=
  let textLower := pyLower text
  let scores := scoresList textLower jd_areas
  let best :=
    match pyMaxBy scores with
    | some (k, v) => if 0 < v then k else ("50-59 Personal", "54 Memberships")
    | none => ("50-59 Personal", "54 Memberships")
  { jd_area := some best.1,
    jd_category := some best.2,
    tags := keywordTags textLower,
    confidence := "low",
    summary := if 200 < text.length then pyTakeStr text 200 ++ "..." else text,
    correspondent := none,
    date_mentioned := none,
    entities := [] }

/-- Whether (area, category) is a pair of the given taxonomy. -/
def validPair (t : Taxonomy) (area cat : String) : Bool :=
  t.any (fun p => p.1 == area && p.2.any (fun q => q.1 == cat))

/-! ### TaxonomyValidator (`JDValidator` in jd_system.py)

The validator takes the jdex `areas` document; all it reads from an area is
its name and the list of its category names, so an area is embedded as its
name paired with its category-name list. -/

/-- Matcher for `.+`-after-`\s+` once at least one whitespace character has
been consumed: the head may be matched by `.` (any non-newline), or be further
whitespace absorbed by `\s+` with the match continuing. -/
def reTailAny : List Char → Bool
  | [] => false
  | c :: t => (c.toNat != 10) || (pyIsSpace c && reTailAny t)

/-- Prefix matcher for the regex fragment `\s+.+`. -/
def reSpacesThenAny : List Char → Bool
  | [] => false
  | c :: t => pyIsSpace c && reTailAny t

/-- Embedding of `JDValidator.is_valid_area_name` (`re.match` of
`^\d{2}-\d{2}\s+.+`, an unanchored-prefix match). -/
def is_valid_area_name (s : String) : Bool :=
  match s.data with
  | c0 :: c1 :: c2 :: c3 :: c4 :: rest =>
      pyIsDigit c0 && pyIsDigit c1 && (c2 == '-') && pyIsDigit c3 && pyIsDigit c4 &&
      reSpacesThenAny rest
  | _ => false

/-- Embedding of `JDValidator.is_valid_category_name` (`^\d{2}\s+.+`). -/
def is_valid_category_name (s : String) : Bool :=
  match s.data with
  | c0 :: c1 :: rest => pyIsDigit c0 && pyIsDigit c1 && reSpacesThenAny rest
  | _ => false

/-- Embedding of `JDValidator.get_area_range` (`^(\d{2})-(\d{2})\s+`). -/
def get_area_range (s : String) : Option (Nat × Nat) :=
  match s.data with
  | c0 :: c1 :: c2 :: c3 :: c4 :: c5 :: _ =>
      if pyIsDigit c0 && pyIsDigit c1 && (c2 == '-') && pyIsDigit c3 && pyIsDigit c4 &&
         pyIsSpace c5 then
        some (digitVal c0 * 10 + digitVal c1, digitVal c3 * 10 + digitVal c4)
      else none
  | _ => none

/-- Embedding of `JDValidator.get_category_number` (`^(\d{2})\s+`). -/
def get_category_number (s : String) : Option Nat :=
  match s.data with
  | c0 :: c1 :: c2 :: _ =>
      if pyIsDigit c0 && pyIsDigit c1 && pyIsSpace c2 then
        some (digitVal c0 * 10 + digitVal c1)
      else none
  | _ => none

/-- Embedding of `JDValidator.category_belongs_to_area`. -/
def category_belongs_to_area (category_name area_name : String) : Bool :=
  match get_category_number category_name, get_area_range area_name with
  | some n, some r => decide (r.1 ≤ n) && decide (n ≤ r.2)
  | _, _ => false

/-- The ten legal decade ranges (`VALID_AREA_RANGES`). -/
def VALID_AREA_RANGES : List (Nat × Nat) :=
  [(0, 9), (10, 19), (20, 29), (30, 39), (40, 49),
   (50, 59), (60, 69), (70, 79), (80, 89), (90, 99)]

/-- A single-quote character, used inside validator messages. -/
def quoteCh : String := String.mk [Char.ofNat 39]

/-- Violation message for the area-count limit. -/
def tooManyAreasMsg (n : Nat) : String :=
  "Too many areas: " ++ natDecimal n ++ " (max 9 user areas)"

/-- Violation message for a malformed area name. -/
def invalidAreaNameMsg (name : String) : String :=
  "Invalid area name format: " ++ quoteCh ++ name ++ quoteCh ++ " (expected " ++ quoteCh ++
    "XX-XX Name" ++ quoteCh ++ ")"

/-- Violation message for a duplicated area range. -/
def dupRangeMsg (name : String) : String := "Duplicate area range: " ++ name

/-- Violation message for an illegal area range. -/
def invalidRangeMsg (name : String) : String :=
  "Invalid area range: " ++ name ++ " (must be X0-X9 pattern)"

/-- Violation message for the per-area category-count limit. -/
def tooManyCatsMsg (name : String) (n : Nat) : String :=
  "Too many categories in " ++ name ++ ": " ++ natDecimal n ++ " (max 10)"

/-- Violation message for a malformed category name. -/
def invalidCatNameMsg (cat area : String) : String :=
  "Invalid category name format: " ++ quoteCh ++ cat ++ quoteCh ++ " in " ++ area

/-- Violation message for a category outside its area's range. -/
def outsideRangeMsg (cat area : String) : String :=
  "Category " ++ cat ++ " outside range for " ++ area

/-- Violation message for a duplicated category number. -/
def dupCatNumMsg (n : Nat) (area : String) : String :=
  "Duplicate category number " ++ natDecimal n ++ " in " ++ area

/-- Inner loop of `validate_structure` over one area's category names,
accumulating errors and the set of used category numbers.  A malformed
category name `continue`s past the membership and uniqueness checks. -/
def validateCats (area : String) :
    List String → List String → List Nat → List String × List Nat
  | [], errs, used => (errs, used)
  | cat :: rest, errs, used =>
      if is_valid_category_name cat then
        let errs1 :=
          if category_belongs_to_area cat area then errs
          else errs ++ [outsideRangeMsg cat area]
        match get_category_number cat with
        | some n =>
            let errs2 := if n ∈ used then errs1 ++ [dupCatNumMsg n area] else errs1
            validateCats area rest errs2 (if n ∈ used then used else used ++ [n])
        | none => validateCats area rest errs1 used
      else
        validateCats area rest (errs ++ [invalidCatNameMsg cat area]) used

/-- Outer loop of `validate_structure` over the areas, accumulating errors and
the set of used decade ranges.  A malformed area name `continue`s past the
range and category checks of that area. -/
def validateAreas :
    List (String × List String) → List String → List (Nat × Nat) →
      List String × List (Nat × Nat)
  | [], errs, used => (errs, used)
  | (name, cats) :: rest, errs, used =>
      if is_valid_area_name name then
        let step :=
          match get_area_range name with
          | some r =>
              let e1 := if r ∈ used then errs ++ [dupRangeMsg name] else errs
              let u1 := if r ∈ used then used else used ++ [r]
              let e2 := if r ∈ VALID_AREA_RANGES then e1 else e1 ++ [invalidRangeMsg name]
              (e2, u1)
          | none => (errs, used)
        let errs2 :=
          if 10 < cats.length then step.1 ++ [tooManyCatsMsg name cats.length] else step.1
        validateAreas rest (validateCats name cats errs2 []).1 step.2
      else
        validateAreas rest (errs ++ [invalidAreaNameMsg name]) used

/-- Embedding of `JDValidator.validate_structure`: the area-count check runs
first, then the per-area loop; the result is `(is_valid, errors)`. -/
def validate_structure (areas : List (String × List String)) : Bool × List String :=
  let nonSystem := areas.filter (fun p => !(pyStartsWith p.1 "00-09"))
  let errs0 := if 9 < nonSystem.length then [tooManyAreasMsg nonSystem.length] else []
  let errs := (validateAreas areas errs0 []).1
  (errs.isEmpty, errs)

/-! ### Filename generation (`generate_filename` and friends) -/

/-- Index of the last dot of a file name, if any. -/
def lastDotIdx (l : List Char) : Option Nat :=
  ((List.range l.length).filter (fun i => decide (l.get? i = some '.'))).getLast?

/-- `pathlib.Path(name).suffix`: from the last dot when it is neither the
first nor the final character, otherwise empty. -/
def pathSuffix (name : String) : String :=
  match lastDotIdx name.data with
  | some i => if 0 < i ∧ i + 1 < name.data.length then pyDropStr name i else ""
  | none => ""

/-- `pathlib.Path(name).stem`: the complement of `pathSuffix`. -/
def pathStem (name : String) : String :=
  match lastDotIdx name.data with
  | some i => if 0 < i ∧ i + 1 < name.data.length then pyTakeStr name i else name
  | none => name

/-- `pathlib.Path(p).name`: the component after the final slash. -/
def pathBaseName (p : String) : String :=
  String.mk ((p.data.reverse.takeWhile (fun c => c != '/')).reverse)

/-- Cleanup applied to issuer and document type: `strip()`, `rstrip(".,;:")`,
then replacing `/`, `\` and `:` with underscores. -/
def cleanField (s : String) : String :=
  String.mk ((pyRstripSet (pyStrip s) ['.', ',', ';', ':']).data.map
    (fun c => if c == '/' || c == '\\' || c == ':' then '_' else c))

/-- Python `str.title` (ASCII fragment): a letter starting an alphabetic run
is upper-cased, subsequent letters lower-cased. -/
def pyTitleAux : List Char → Bool → List Char
  | [], _ => []
  | c :: t, prevAlpha =>
      (if c.isAlpha then (if prevAlpha then c.toLower else c.toUpper) else c) ::
        pyTitleAux t c.isAlpha

/-- Python `str.title` on a string. -/
def pyTitle (s : String) : String := String.mk (pyTitleAux s.data false)

/-- Python `stem.replace("_", " ")`. -/
def underscoresToSpaces (s : String) : String :=
  String.mk (s.data.map (fun c => if c == '_' then ' ' else c))

/-- `extract_year`: first four characters of the mentioned date, else the
current year (the wall clock enters the model as the `curYear` argument). -/
def extract_year (analysis : Analysis) (curYear : String) : String :=
  match analysis.date_mentioned with
  | some d => if d ≠ "" then pyTakeStr d 4 else curYear
  | none => curYear

/-- The descriptor parts `[issuer, document type, (subject)]` shared by
`generate_filename` and `generate_folder_descriptor`; each field is cleaned
and dropped when it cleans to empty, and the subject is added when it is
neither null-like nor empty. -/
def descriptorParts (analysis : Analysis) : List String :=
  let issuer0 := analysis.issuer.getD ""
  let issuer := if issuer0 ≠ "" then cleanField issuer0 else issuer0
  let doc0 := analysis.document_type.getD ""
  let doc := if doc0 ≠ "" then cleanField doc0 else doc0
  let p1 := if issuer ≠ "" then [issuer] else []
  let p2 := if doc ≠ "" then [doc] else []
  let p3 :=
    match analysis.subject_person with
    | some sp =>
        if sp ≠ "" ∧ pyLower sp ≠ "null" ∧ pyLower sp ≠ "none" ∧ pyLower sp ≠ "" then
          ["(" ++ sp ++ ")"]
        else []
    | none => []
  p1 ++ p2 ++ p3

/-- The descriptor before its length cap: joined parts, or the title-cased,
date-stripped original stem when no part is available. -/
def rawDescriptor (analysis : Analysis) (original_name : String) : String :=
  let parts := descriptorParts analysis
  if parts ≠ [] then String.intercalate " " parts
  else
    let stem := pathStem original_name
    let stem1 :=
      if 8 < stem.length ∧ (stem.data.take 8).all pyIsDigit then
        (if 9 < stem.length then pyDropStr stem 9 else stem)
      else stem
    pyTitle (underscoresToSpaces stem1)

/-- Embedding of `generate_filename`: `"{jd_id} {descriptor} {year}{suffix}"`
with the descriptor capped at 50 characters. -/
def generate_filename (original_name : String) (analysis : Analysis)
    (jd_id year curYear : String) : String :=
  let suffix := pathSuffix original_name
  let descriptor := pyTakeStr (rawDescriptor analysis original_name) 50
  let year1 := if year = "" then extract_year analysis curYear else year
  if jd_id ≠ "" then jd_id ++ " " ++ descriptor ++ " " ++ year1 ++ suffix
  else descriptor ++ " " ++ year1 ++ suffix

/-- Embedding of `generate_folder_descriptor`: the same descriptor capped at
60 characters. -/
def generate_folder_descriptor (analysis : Analysis) (original_name : String) : String :=
  pyTakeStr (rawDescriptor analysis original_name) 60

/-! ### DuplicateIndex (`build_hash_index` and friends)

The library is modelled as the list of its files in walk order, each carrying
its path components relative to the root and its SHA-256 content hash; the
hash itself is an opaque string computed by the external `hashlib` digest. -/

/-- The `SUPPORTED_FORMATS` extension set. -/
def SUPPORTED_FORMATS : List String :=
  [".pdf", ".png", ".jpg", ".jpeg", ".tiff", ".bmp", ".docx", ".pptx", ".xlsx",
   ".txt", ".html"]

/-- One file encountered by the library walk. -/
structure LibFile where
  parts : List String
  hash : String
deriving DecidableEq

/-- Name of a walked file (its final path component). -/
def fileName (f : LibFile) : String := (f.parts.getLast?).getD ""

/-- Rendered path of a walked file. -/
def filePathStr (f : LibFile) : String := String.intercalate "/" f.parts

/-- The scan filter of `build_hash_index`: skip hidden files, metadata
sidecars, unsupported extensions, and the inbox subtree. -/
def includeInScan (f : LibFile) : Bool :=
  let name := fileName f
  !(pyStartsWith name ".") &&
  !(pyEndsWith name ".meta.json") && !(pyEndsWith name ".analysis.json") &&
  SUPPORTED_FORMATS.contains (pyLower (pathSuffix name)) &&
  !(f.parts.head? == some "00-09 System" && f.parts.get? 1 == some "01 Inbox")

/-- The scan loop of `build_hash_index` over the walked files, carrying the
index being built and the set of observed hashes (`found_hashes`). -/
def hashScan : List LibFile → List (String × String) → List String →
    List (String × String) × List String
  | [], idx, found => (idx, found)
  | f :: rest, idx, found =>
      if includeInScan f then
        hashScan rest
          (if (alookup idx f.hash).isSome then idx else idx ++ [(f.hash, filePathStr f)])
          (if found.contains f.hash then found else found ++ [f.hash])
      else hashScan rest idx found

/-- Embedding of `build_hash_index`: start from the loaded index (or empty on
a forced rebuild), add every scanned file whose hash is new, remember the
observed hashes, and finally drop the stale entries whose hash was not
observed; the result is the persisted `.hash_index.json`. -/
def build_hash_index (lib : List LibFile) (prev : List (String × String))
    (force_rebuild : Bool) : List (String × String) :=
  let start := if force_rebuild then [] else prev
  let scan := hashScan lib start []
  scan.1.filter (fun p => scan.2.contains p.1)

/-- The hashes observed during one walk of the library. -/
def observedHashes (lib : List LibFile) : List String :=
  (lib.filter includeInScan).map (fun f => f.hash)

/-! ### Organizer and per-file processing (`organize_file`, `process_file`)

The world record gathers every document the organizer can mutate: the files
on disk (path to content hash), the duplicate index, the allocator state, the
search index, the metadata sidecars written, and the JDex index entries.
Wall-clock values enter as the `curYear`/`nowIso` arguments; text extraction
and the AI backends are external collaborators, so the extraction outcome is
an argument and categorization is the keyword backend. -/

/-- One entry of `.search_index.json`. -/
structure SearchEntry where
  file_path : String
  original_filename : String
  jd_area : Option String
  jd_category : Option String
  correspondent : Option String
  tags : List String
  summary : String
  entities : List String
  date_mentioned : Option String
  indexed_at : String
  extracted_text : String
deriving DecidableEq

/-- The mutable filesystem-resident state of one library root. -/
structure World where
  files : List (String × String)
  hashIndex : List (String × String)
  idState : IdState
  searchIndex : List SearchEntry
  sidecars : List String
  jdexEntries : List String
deriving DecidableEq

/-- `get_file_hash`: the content hash of an existing file. -/
def get_file_hash (files : List (String × String)) (path : String) : String :=
  (alookup files path).getD ""

/-- Embedding of `find_duplicate_in_index`: an index hit whose recorded path
still exists is a duplicate; a stale hit is pruned from the persisted index
and reported as no duplicate. -/
def find_duplicate_in_index (w : World) (file_path : String) : Option String × World :=
  let h := get_file_hash w.files file_path
  match alookup w.hashIndex h with
  | some existing =>
      if (alookup w.files existing).isSome then (some existing, w)
      else (none, { w with hashIndex := w.hashIndex.filter (fun p => p.1 ≠ h) })
  | none => (none, w)

/-- The collision loop of `organize_file`: Python retries
`"{stem}_{counter}{suffix}"` for `counter = 1, 2, ...` until the destination
does not exist; the file list being finite, a free name occurs among the
first `files.length + 1` candidates, and the terminal `.getD` is unreachable. -/
def resolveCollision (files : List (String × String)) (dest_dir new_name : String) :
    String :=
  let base := dest_dir ++ "/" ++ new_name
  if (alookup files base).isNone then base
  else
    let stem := pathStem new_name
    let sfx := pathSuffix new_name
    (((List.range (files.length + 1)).map
        (fun i => dest_dir ++ "/" ++ stem ++ "_" ++ natDecimal (i + 1) ++ sfx)).find?
      (fun p => (alookup files p).isNone)).getD base

/-- Text of one appended JDex index entry (`update_jdex_index`). -/
def jdexEntryText (jd_id correspondent year filename summary : String) : String :=
  "#### " ++ jd_id ++ " " ++ correspondent ++ " " ++ year ++
    "\nLocation: file system\n\n- " ++ filename ++ "\n  " ++
    (if 100 < summary.length then pyTakeStr summary 100 ++ "..." else summary) ++ "\n"

/-- Embedding of `organize_file`: allocate the identifier, move the file to
`Area/Category/"{id} {descriptor} {year}{ext}"` resolving name collisions,
write the metadata sidecar, append the search-index entry, record the hash,
and append the JDex entry. -/
def organize_file (w : World) (output_dir file_path : String) (analysis : Analysis)
    (extracted_text curYear nowIso : String) : String × World :=
  let jd_area := analysis.jd_area.getD "50-59 Personal"
  let jd_category := analysis.jd_category.getD "54 Memberships"
  let original_name := pathBaseName file_path
  let folder_descriptor := generate_folder_descriptor analysis original_name
  let year := extract_year analysis curYear
  let alloc := get_or_create_jd_id w.idState jd_category folder_descriptor year
  let dest_dir := output_dir ++ "/" ++ jd_area ++ "/" ++ jd_category
  let new_name := generate_filename original_name analysis alloc.1 year curYear
  let dest_path := resolveCollision w.files dest_dir new_name
  let file_hash := get_file_hash w.files file_path
  let entry : SearchEntry :=
    { file_path := dest_path,
      original_filename := original_name,
      jd_area := analysis.jd_area,
      jd_category := analysis.jd_category,
      correspondent := analysis.correspondent,
      tags := analysis.tags,
      summary := analysis.summary,
      entities := analysis.entities,
      date_mentioned := analysis.date_mentioned,
      indexed_at := nowIso,
      extracted_text := extracted_text }
  (dest_path,
   { files := (w.files.filter (fun p => p.1 ≠ file_path)) ++ [(dest_path, file_hash)],
     hashIndex := dictSet w.hashIndex file_hash dest_path,
     idState := alloc.2,
     searchIndex := w.searchIndex ++ [entry],
     sidecars := w.sidecars ++ [dest_path ++ ".meta.json"],
     jdexEntries := w.jdexEntries ++
       [jdexEntryText alloc.1 folder_descriptor year (pathBaseName dest_path)
         analysis.summary] })

/-- Outcome of `process_file`, mirroring its returned dictionaries. -/
inductive ProcessResult where
  | ok (original destination : String) (analysis : Analysis)
  | duplicateOf (existing : String)
  | extractionFailed
deriving DecidableEq

/-- Embedding of `process_file` in keyword mode: duplicate check (deleting
the inbox copy of a duplicate), then extraction (quarantining the file under
`_failed` when it fails or yields blank text), then categorization and
organization. -/
def process_file (w : World) (output_dir file_path : String)
    (extraction : Option String) (jd_areas : Taxonomy) (curYear nowIso : String) :
    ProcessResult × World :=
  match find_duplicate_in_index w file_path with
  | (some existing, w0) =>
      (ProcessResult.duplicateOf existing,
       { w0 with files := w0.files.filter (fun p => p.1 ≠ file_path) })
  | (none, w0) =>
      let text? :=
        match extraction with
        | some t => if pyStrip t = "" then none else some t
        | none => none
      match text? with
      | none =>
          let dest := output_dir ++ "/_failed/" ++ pathBaseName file_path
          (ProcessResult.extractionFailed,
           { w0 with files := (w0.files.filter (fun p => p.1 ≠ file_path)) ++
               [(dest, get_file_hash w0.files file_path)] })
      | some text =>
          let analysis := categorize_with_keywords text jd_areas
          let org := organize_file w0 output_dir file_path analysis text curYear nowIso
          (ProcessResult.ok file_path org.1 analysis, org.2)

/-! ### Arithmetic and dictionary lemmas -/

theorem digitsVal_append (l : List Nat) (d : Nat) :
    digitsVal (l ++ [d]) = digitsVal l * 10 + d := by
  simp [digitsVal]

theorem decDigitsGo_irrel (n : Nat) : ∀ fuel fuel', n < fuel → n < fuel' →
    decDigitsGo fuel n = decDigitsGo fuel' n := by
  induction n using Nat.strong_induction_on with
  | _ n ih =>
    intro fuel fuel' hf hf'
    rcases fuel with _ | f
    · omega
    rcases fuel' with _ | f'
    · omega
    by_cases h : n < 10
    · simp [decDigitsGo, h]
    · simp only [decDigitsGo, h, if_false]
      rw [ih (n / 10) (Nat.div_lt_self (by omega) (by omega)) f f' (by omega) (by omega)]

theorem decDigits_eq (n : Nat) :
    decDigits n = if n < 10 then [n] else decDigits (n / 10) ++ [n % 10] := by
  by_cases h : n < 10
  · simp [decDigits, decDigitsGo, h]
  · rw [if_neg h]
    unfold decDigits
    show (if n < 10 then [n] else decDigitsGo n (n / 10) ++ [n % 10]) = _
    rw [if_neg h,
      decDigitsGo_irrel (n / 10) n (n / 10 + 1)
        (Nat.div_lt_self (by omega) (by omega)) (Nat.lt_succ_self _)]

theorem decDigits_val (n : Nat) : digitsVal (decDigits n) = n := by
  induction n using Nat.strong_induction_on with
  | _ n ih =>
    rw [decDigits_eq]
    by_cases h : n < 10
    · simp [h, digitsVal]
    · simp only [h, if_false]
      rw [digitsVal_append, ih (n / 10) (Nat.div_lt_self (by omega) (by omega))]
      omega

theorem decDigits_injective {m n : Nat} (h : decDigits m = decDigits n) :
    m = n := by
  have hm := decDigits_val m
  have hn := decDigits_val n
  rw [h] at hm
  omega

theorem decDigits_lt (n : Nat) : ∀ d ∈ decDigits n, d < 10 := by
  induction n using Nat.strong_induction_on with
  | _ n ih =>
    rw [decDigits_eq]
    by_cases h : n < 10
    · intro d hd
      simp [h] at hd
      omega
    · simp only [h, if_false]
      intro d hd
      rcases List.mem_append.mp hd with h1 | h2
      · exact ih (n / 10) (Nat.div_lt_self (by omega) (by omega)) d h1
      · simp at h2; omega

theorem decDigits_ne_nil (n : Nat) : decDigits n ≠ [] := by
  rw [decDigits_eq]
  by_cases h : n < 10 <;> simp [h]

theorem decDigits_head_pos (n : Nat) (hn : 1 ≤ n) :
    ∀ d, (decDigits n).head? = some d → 1 ≤ d := by
  induction n using Nat.strong_induction_on with
  | _ n ih =>
    rw [decDigits_eq]
    by_cases h : n < 10
    · simp [h]; omega
    · simp only [h, if_false]
      intro d hd
      rw [List.head?_append_of_ne_nil _ (decDigits_ne_nil _)] at hd
      exact ih (n / 10) (Nat.div_lt_self (by omega) (by omega)) (by omega) d hd

theorem decDigitChar_injOn {a b : Nat} (ha : a < 10) (hb : b < 10)
    (h : decDigitChar a = decDigitChar b) : a = b := by
  interval_cases a <;> interval_cases b <;> first | rfl | (exfalso; exact absurd h (by decide))

theorem map_decDigitChar_injOn : ∀ {l1 l2 : List Nat},
    (∀ d ∈ l1, d < 10) → (∀ d ∈ l2, d < 10) →
    l1.map decDigitChar = l2.map decDigitChar → l1 = l2
  | [], [], _, _, _ => rfl
  | [], _ :: _, _, _, h => by simp at h
  | _ :: _, [], _, _, h => by simp at h
  | a :: l1, b :: l2, h1, h2, h => by
    simp only [List.map_cons, List.cons.injEq] at h
    have hd := decDigitChar_injOn (h1 a (by simp)) (h2 b (by simp)) h.1
    have tl := map_decDigitChar_injOn (fun d hd => h1 d (by simp [hd]))
      (fun d hd => h2 d (by simp [hd])) h.2
    rw [hd, tl]

theorem natDecimal_injective {m n : Nat} (h : natDecimal m = natDecimal n) :
    m = n := by
  have : (decDigits m).map decDigitChar = (decDigits n).map decDigitChar := by
    have := congrArg String.data h
    simpa [natDecimal] using this
  exact decDigits_injective (map_decDigitChar_injOn (decDigits_lt m) (decDigits_lt n) this)

theorem natDecimal_head_ne_zero (n : Nat) (hn : 10 ≤ n) :
    (natDecimal n).data.head? ≠ some '0' := by
  intro hcontra
  simp only [natDecimal, String.data] at hcontra
  rcases hl : decDigits n with _ | ⟨d, rest⟩
  · exact decDigits_ne_nil n hl
  · rw [hl] at hcontra
    simp only [List.map_cons, List.head?_cons, Option.some.injEq] at hcontra
    have hd1 : 1 ≤ d := decDigits_head_pos n (by omega) d (by rw [hl]; rfl)
    have hd10 : d < 10 := decDigits_lt n d (by rw [hl]; simp)
    have : d = 0 := by
      have h0 : decDigitChar d = decDigitChar 0 := by
        simpa [decDigitChar] using hcontra
      exact decDigitChar_injOn hd10 (by omega) h0
    omega

theorem pad2_injective {m n : Nat} (h : pad2 m = pad2 n) : m = n := by
  unfold pad2 at h
  by_cases hm : m < 10 <;> by_cases hn : n < 10
  · simp only [hm, hn, if_true] at h
    have : natDecimal m = natDecimal n := by
      have := congrArg String.data h
      simp only [String.data_append] at this
      exact congrArg String.mk (List.append_cancel_left this)
    exact natDecimal_injective this
  · exfalso
    simp only [hm, hn, if_true, if_false] at h
    apply natDecimal_head_ne_zero n (by omega)
    rw [← h]
    simp [String.data_append]
  · exfalso
    simp only [hm, hn, if_true, if_false] at h
    apply natDecimal_head_ne_zero m (by omega)
    rw [h]
    simp [String.data_append]
  · simp only [hm, hn, if_false] at h
    exact natDecimal_injective h

theorem alookup_map_set {α : Type} (l : List (String × α)) (k : String) (v : α) :
    alookup (l.map (fun p => if p.1 = k then (k, v) else p)) k =
      if (alookup l k).isSome then some v else none := by
  induction l with
  | nil => simp [alookup]
  | cons p t ih =>
    by_cases h : p.1 = k
    · simp [alookup, h]
    · simp only [List.map_cons, if_neg h, alookup, ih]

theorem alookup_append_singleton {α : Type} (l : List (String × α)) (k : String) (v : α) :
    alookup (l ++ [(k, v)]) k = if (alookup l k).isSome then alookup l k else some v := by
  induction l with
  | nil => simp [alookup]
  | cons p t ih =>
    by_cases h : p.1 = k
    · simp [alookup, h]
    · show alookup (p :: (t ++ [(k, v)])) k = _
      rw [alookup, if_neg h, ih, alookup, if_neg h]

theorem alookup_map_set_other {α : Type} (l : List (String × α)) (k k' : String)
    (v : α) (hne : k' ≠ k) :
    alookup (l.map (fun p => if p.1 = k then (k, v) else p)) k' = alookup l k' := by
  induction l with
  | nil => rfl
  | cons p t ih =>
    by_cases hp : p.1 = k
    · rw [List.map_cons, if_pos hp, alookup, alookup, if_neg (Ne.symm hne),
        if_neg (show ¬ p.1 = k' by rw [hp]; exact Ne.symm hne), ih]
    · rw [List.map_cons, if_neg hp, alookup, alookup]
      by_cases hp' : p.1 = k'
      · rw [if_pos hp', if_pos hp']
      · rw [if_neg hp', if_neg hp', ih]

theorem alookup_append_singleton_other {α : Type} (l : List (String × α))
    (k k' : String) (v : α) (hne : k' ≠ k) :
    alookup (l ++ [(k, v)]) k' = alookup l k' := by
  induction l with
  | nil => simp [alookup, if_neg (Ne.symm hne)]
  | cons p t ih =>
    show alookup (p :: (t ++ [(k, v)])) k' = _
    rw [alookup, alookup]
    by_cases hp : p.1 = k'
    · rw [if_pos hp, if_pos hp]
    · rw [if_neg hp, if_neg hp, ih]

theorem alookup_dictSet_self {α : Type} (l : List (String × α)) (k : String) (v : α) :
    alookup (dictSet l k v) k = some v := by
  unfold dictSet
  by_cases h : (alookup l k).isSome
  · rw [if_pos h, alookup_map_set, if_pos h]
  · rw [if_neg h, alookup_append_singleton, if_neg h]

theorem alookup_dictSet_other {α : Type} (l : List (String × α)) (k k' : String)
    (v : α) (hne : k' ≠ k) : alookup (dictSet l k v) k' = alookup l k' := by
  unfold dictSet
  by_cases h : (alookup l k).isSome
  · rw [if_pos h, alookup_map_set_other l k k' v hne]
  · rw [if_neg h, alookup_append_singleton_other l k k' v hne]

theorem alookup_filter_ne {α : Type} (l : List (String × α)) (k k' : String)
    (hne : k' ≠ k) :
    alookup (l.filter (fun p => p.1 ≠ k)) k' = alookup l k' := by
  induction l with
  | nil => rfl
  | cons p t ih =>
    rw [List.filter_cons]
    by_cases hp : p.1 = k
    · rw [if_neg (by simp [hp]), ih, alookup,
        if_neg (show ¬ p.1 = k' by rw [hp]; exact Ne.symm hne)]
    · rw [if_pos (by simp [hp]), alookup, alookup]
      by_cases hp' : p.1 = k'
      · rw [if_pos hp', if_pos hp']
      · rw [if_neg hp', if_neg hp', ih]

theorem pyIsDigit_not_space {c : Char} (h : pyIsDigit c = true) :
    pyIsSpace c = false := by
  simp only [pyIsDigit, Bool.and_eq_true, decide_eq_true_eq] at h
  simp only [pyIsSpace, Bool.or_eq_false_iff, decide_eq_false_iff_not]
  omega

theorem pad2_suffix_inj (pre : String) {m n : Nat}
    (h : pre ++ pad2 m = pre ++ pad2 n) : m = n := by
  have hd := congrArg String.data h
  simp only [String.data_append] at hd
  have := List.append_cancel_left hd
  exact pad2_injective (congrArg String.mk this)

/-! ### Allocator lemmas -/

theorem get_alloc_mapped (s : IdState) (cat c y id : String)
    (h : mappingLookup s cat (jdKey c y) = some id) :
    get_or_create_jd_id s cat c y = (id, s) := by
  unfold mappingLookup at h
  simp only [get_or_create_jd_id]
  rw [h]

theorem get_alloc_fresh (s : IdState) (cat c y : String)
    (h : mappingLookup s cat (jdKey c y) = none) :
    get_or_create_jd_id s cat c y =
      (firstToken cat ++ "." ++ pad2 (nextIdOf s cat),
       dictSet s cat
         ⟨nextIdOf s cat + 1,
          dictSet ((alookup s cat).getD ⟨1, []⟩).mappings (jdKey c y)
            (firstToken cat ++ "." ++ pad2 (nextIdOf s cat))⟩) := by
  unfold mappingLookup at h
  simp only [get_or_create_jd_id, nextIdOf]
  rw [h]

theorem alloc_fresh_mapping (s : IdState) (cat c y : String)
    (h : mappingLookup s cat (jdKey c y) = none) :
    mappingLookup (get_or_create_jd_id s cat c y).2 cat (jdKey c y) =
      some (get_or_create_jd_id s cat c y).1 := by
  rw [get_alloc_fresh s cat c y h]
  unfold mappingLookup
  rw [alookup_dictSet_self]
  simp only [Option.getD_some]
  rw [alookup_dictSet_self]

theorem alloc_fresh_next (s : IdState) (cat c y : String)
    (h : mappingLookup s cat (jdKey c y) = none) :
    nextIdOf (get_or_create_jd_id s cat c y).2 cat = nextIdOf s cat + 1 := by
  rw [get_alloc_fresh s cat c y h]
  unfold nextIdOf
  rw [alookup_dictSet_self]
  simp only [Option.getD_some]

theorem nextIdOf_alloc_mono (s : IdState) (cat' cat c y : String) :
    nextIdOf s cat' ≤ nextIdOf (get_or_create_jd_id s cat c y).2 cat' := by
  rcases hm : mappingLookup s cat (jdKey c y) with _ | id
  · rw [get_alloc_fresh s cat c y hm]
    by_cases hc : cat' = cat
    · subst hc
      unfold nextIdOf
      rw [alookup_dictSet_self]
      exact Nat.le_succ _
    · unfold nextIdOf
      rw [alookup_dictSet_other _ _ _ _ hc]
  · rw [get_alloc_mapped s cat c y id hm]

theorem nextIdOf_allocRun_mono (ops : List (String × String × String)) :
    ∀ (s : IdState) (cat : String), nextIdOf s cat ≤ nextIdOf (allocRun s ops) cat := by
  induction ops with
  | nil => intro s cat; exact Nat.le_refl _
  | cons op t ih =>
      intro s cat
      have h1 := nextIdOf_alloc_mono s cat op.1 op.2.1 op.2.2
      have h2 := ih (get_or_create_jd_id s op.1 op.2.1 op.2.2).2 cat
      exact Nat.le_trans h1 h2

theorem firstToken_valid_cat (cat : String)
    (h : is_valid_category_name cat = true) :
    firstToken cat = pyTakeStr cat 2 ∧ (cat.data.take 2).all pyIsDigit = true := by
  unfold is_valid_category_name at h
  rcases hd : cat.data with _ | ⟨c0, rest0⟩
  · rw [hd] at h; exact absurd h (by simp)
  rcases rest0 with _ | ⟨c1, rest1⟩
  · rw [hd] at h; exact absurd h (by simp)
  rw [hd] at h
  simp only [Bool.and_eq_true] at h
  obtain ⟨⟨h0, h1⟩, hrest⟩ := h
  unfold reSpacesThenAny at hrest
  rcases rest1 with _ | ⟨c2, rest2⟩
  · exact absurd hrest (by simp)
  simp only [Bool.and_eq_true] at hrest
  constructor
  · unfold firstToken pyTakeStr
    rw [hd]
    rw [List.dropWhile_cons_of_neg (by rw [pyIsDigit_not_space h0]; simp)]
    rw [List.takeWhile_cons_of_pos (by rw [pyIsDigit_not_space h0]; simp),
        List.takeWhile_cons_of_pos (by rw [pyIsDigit_not_space h1]; simp),
        List.takeWhile_cons_of_neg (by rw [hrest.1]; simp)]
    rfl
  · simp [h0, h1]

/-- C1: the ID allocator is idempotent per allocation key — allocating twice
with the same (category, descriptor, year) returns the same identifier both
times, and a key that already has an assigned identifier for the category is
returned unchanged without modifying the persisted allocation state. -/
theorem C1_allocator_idempotent (s : IdState) (cat issuer year : String) :
    (get_or_create_jd_id (get_or_create_jd_id s cat issuer year).2 cat issuer year).1 =
      (get_or_create_jd_id s cat issuer year).1 ∧
    (∀ id0, mappingLookup s cat (jdKey issuer year) = some id0 →
      get_or_create_jd_id s cat issuer year = (id0, s)) := by
  constructor
  · rcases hm : mappingLookup s cat (jdKey issuer year) with _ | id
    · have h2 := alloc_fresh_mapping s cat issuer year hm
      rw [get_alloc_mapped _ cat issuer year _ h2]
    · rw [get_alloc_mapped s cat issuer year id hm]
      rw [get_alloc_mapped s cat issuer year id hm]
  · intro id0 h
    exact get_alloc_mapped s cat issuer year id0 h

/-- Witness for C1 at a concrete state: the key `Amazon_2024` is already
mapped, so the identifier comes back unchanged with the state untouched. -/
theorem C1_allocator_idempotent_witness :
    get_or_create_jd_id [("14 Receipts", ⟨2, [("Amazon_2024", "14.01")]⟩)]
      "14 Receipts" "Amazon" "2024" =
      ("14.01", [("14 Receipts", ⟨2, [("Amazon_2024", "14.01")]⟩)]) :=
  (C1_allocator_idempotent [("14 Receipts", ⟨2, [("Amazon_2024", "14.01")]⟩)]
    "14 Receipts" "Amazon" "2024").2 "14.01" (by decide)

/-- C2: a fresh allocation issues `"<two-digit prefix>.<counter padded to 2
digits>"`, persists the mapping in the state returned with the identifier,
bumps the counter, and any later fresh allocation in the same category uses a
strictly larger counter and so never reuses the identifier. -/
theorem C2_allocator_fresh_format_monotone (s : IdState) (cat issuer year : String)
    (hvalid : is_valid_category_name cat = true)
    (hfresh : mappingLookup s cat (jdKey issuer year) = none) :
    (get_or_create_jd_id s cat issuer year).1 =
        pyTakeStr cat 2 ++ "." ++ pad2 (nextIdOf s cat) ∧
    (cat.data.take 2).all pyIsDigit = true ∧
    mappingLookup (get_or_create_jd_id s cat issuer year).2 cat (jdKey issuer year) =
        some (get_or_create_jd_id s cat issuer year).1 ∧
    nextIdOf (get_or_create_jd_id s cat issuer year).2 cat = nextIdOf s cat + 1 ∧
    (∀ ops issuer2 year2,
      mappingLookup (allocRun (get_or_create_jd_id s cat issuer year).2 ops) cat
          (jdKey issuer2 year2) = none →
      nextIdOf s cat <
          nextIdOf (allocRun (get_or_create_jd_id s cat issuer year).2 ops) cat ∧
      (get_or_create_jd_id (allocRun (get_or_create_jd_id s cat issuer year).2 ops)
          cat issuer2 year2).1 =
        pyTakeStr cat 2 ++ "." ++
          pad2 (nextIdOf (allocRun (get_or_create_jd_id s cat issuer year).2 ops) cat) ∧
      (get_or_create_jd_id (allocRun (get_or_create_jd_id s cat issuer year).2 ops)
          cat issuer2 year2).1 ≠ (get_or_create_jd_id s cat issuer year).1) := by
  obtain ⟨htok, hdig⟩ := firstToken_valid_cat cat hvalid
  have hid : (get_or_create_jd_id s cat issuer year).1 =
      pyTakeStr cat 2 ++ "." ++ pad2 (nextIdOf s cat) := by
    rw [get_alloc_fresh s cat issuer year hfresh, ← htok]
  refine ⟨hid, hdig, alloc_fresh_mapping s cat issuer year hfresh,
    alloc_fresh_next s cat issuer year hfresh, ?_⟩
  intro ops issuer2 year2 hfresh2
  have hmono := nextIdOf_allocRun_mono ops (get_or_create_jd_id s cat issuer year).2 cat
  rw [alloc_fresh_next s cat issuer year hfresh] at hmono
  have hlt : nextIdOf s cat <
      nextIdOf (allocRun (get_or_create_jd_id s cat issuer year).2 ops) cat :=
    Nat.lt_of_lt_of_le (Nat.lt_succ_self _) hmono
  have hid2 : (get_or_create_jd_id (allocRun (get_or_create_jd_id s cat issuer year).2 ops)
      cat issuer2 year2).1 =
      pyTakeStr cat 2 ++ "." ++
        pad2 (nextIdOf (allocRun (get_or_create_jd_id s cat issuer year).2 ops) cat) := by
    rw [get_alloc_fresh _ cat issuer2 year2 hfresh2, ← htok]
  refine ⟨hlt, hid2, ?_⟩
  intro hcontra
  rw [hid2, hid] at hcontra
  have := pad2_suffix_inj (pyTakeStr cat 2 ++ ".") hcontra
  omega

/-- Witness for C2 starting from the empty allocator state: `Amazon`/2024
gets `14.01`, a later fresh key `Ebay`/2024 gets `14.02`. -/
theorem C2_allocator_fresh_format_monotone_witness :
    (get_or_create_jd_id [] "14 Receipts" "Amazon" "2024").1 = "14.01" ∧
    (get_or_create_jd_id (get_or_create_jd_id [] "14 Receipts" "Amazon" "2024").2
      "14 Receipts" "Ebay" "2024").1 = "14.02" := by
  have h := C2_allocator_fresh_format_monotone [] "14 Receipts" "Amazon" "2024"
    (by decide) (by decide)
  obtain ⟨h1, -, -, -, h5⟩ := h
  have h6 := h5 [] "Ebay" "2024" (by decide)
  constructor
  · rw [h1]; decide
  · have := h6.2.1
    rw [show allocRun (get_or_create_jd_id [] "14 Receipts" "Amazon" "2024").2 [] =
        (get_or_create_jd_id [] "14 Receipts" "Amazon" "2024").2 from rfl] at this
    rw [this]
    decide

/-! ### Keyword-categorizer lemmas -/

theorem pyFold_mem {α : Type} (t : List (α × Nat)) :
    ∀ b : α × Nat, t.foldl (fun b q => if b.2 < q.2 then q else b) b ∈ b :: t := by
  induction t with
  | nil => intro b; simp
  | cons q t ih =>
      intro b
      simp only [List.foldl_cons]
      by_cases hlt : b.2 < q.2
      · rw [if_pos hlt]
        rcases List.mem_cons.mp (ih q) with h | h
        · simp [h]
        · simp [h]
      · rw [if_neg hlt]
        rcases List.mem_cons.mp (ih b) with h | h
        · simp [h]
        · simp [h]

theorem pyFold_stays {α : Type} (t : List (α × Nat)) :
    ∀ b : α × Nat, (∀ q ∈ t, q.2 ≤ b.2) →
      t.foldl (fun b q => if b.2 < q.2 then q else b) b = b := by
  induction t with
  | nil => intro b _; rfl
  | cons q t ih =>
      intro b h
      simp only [List.foldl_cons]
      rw [if_neg (by have := h q (by simp); omega)]
      exact ih b (fun q hq => h q (by simp [hq]))

theorem pyFold_lt {α : Type} (t : List (α × Nat)) (v : Nat) :
    ∀ b : α × Nat, b.2 < v → (∀ q ∈ t, q.2 < v) →
      (t.foldl (fun b q => if b.2 < q.2 then q else b) b).2 < v := by
  induction t with
  | nil => intro b hb _; exact hb
  | cons q t ih =>
      intro b hb h
      simp only [List.foldl_cons]
      by_cases hlt : b.2 < q.2
      · rw [if_pos hlt]
        exact ih q (h q (by simp)) (fun q hq => h q (by simp [hq]))
      · rw [if_neg hlt]
        exact ih b hb (fun q hq => h q (by simp [hq]))

theorem pyMaxBy_mem {α : Type} (l : List (α × Nat)) (m : α × Nat)
    (h : pyMaxBy l = some m) : m ∈ l := by
  cases l with
  | nil => exact absurd h (by simp [pyMaxBy])
  | cons p t =>
      simp only [pyMaxBy, Option.some.injEq] at h
      rw [← h]
      exact pyFold_mem t p

theorem pyMaxBy_first_max {α : Type} (l₁ l₂ : List (α × Nat)) (k : α) (v : Nat)
    (h1 : ∀ p ∈ l₁, p.2 < v) (h2 : ∀ p ∈ l₂, p.2 ≤ v) :
    pyMaxBy (l₁ ++ (k, v) :: l₂) = some (k, v) := by
  cases l₁ with
  | nil =>
      simp only [List.nil_append, pyMaxBy, Option.some.injEq]
      exact pyFold_stays l₂ (k, v) h2
  | cons p t =>
      simp only [List.cons_append, pyMaxBy, Option.some.injEq, List.foldl_append]
      have hb : (t.foldl (fun b q => if b.2 < q.2 then q else b) p).2 < v :=
        pyFold_lt t v p (h1 p (by simp)) (fun q hq => h1 q (by simp [hq]))
      simp only [List.foldl_cons]
      rw [if_pos hb]
      exact pyFold_stays l₂ (k, v) h2

theorem scoresList_mem_area (textLower : String) (t : Taxonomy)
    (p : (String × String) × Nat) (hp : p ∈ scoresList textLower t) :
    p.1.1 ≠ "00-09 System" ∧ p.1.1 ≠ "90-99 Archive" := by
  unfold scoresList at hp
  rw [List.mem_flatMap] at hp
  obtain ⟨a, ha, hmap⟩ := hp
  rw [List.mem_filter] at ha
  rw [List.mem_map] at hmap
  obtain ⟨c, _, hc⟩ := hmap
  have hfst : p.1.1 = a.1 := by rw [← hc]
  rw [hfst]
  have := ha.2
  simp only [Bool.and_eq_true, bne_iff_ne] at this
  exact this

theorem categorize_zero_default (text : String) (t : Taxonomy)
    (h : ∀ p ∈ scoresList (pyLower text) t, p.2 = 0) :
    (categorize_with_keywords text t).jd_area = some "50-59 Personal" ∧
    (categorize_with_keywords text t).jd_category = some "54 Memberships" := by
  unfold categorize_with_keywords
  rcases hm : pyMaxBy (scoresList (pyLower text) t) with _ | kv
  · simp [hm]
  · obtain ⟨k, v⟩ := kv
    have hv : v = 0 := h (k, v) (pyMaxBy_mem _ _ hm)
    simp [hm, hv]

theorem categorize_winner (text : String) (t : Taxonomy)
    (l₁ : List ((String × String) × Nat)) (k : String × String) (v : Nat)
    (l₂ : List ((String × String) × Nat))
    (hs : scoresList (pyLower text) t = l₁ ++ (k, v) :: l₂)
    (hv : 0 < v) (h1 : ∀ p ∈ l₁, p.2 < v) (h2 : ∀ p ∈ l₂, p.2 ≤ v) :
    (categorize_with_keywords text t).jd_area = some k.1 ∧
    (categorize_with_keywords text t).jd_category = some k.2 := by
  have hm : pyMaxBy (scoresList (pyLower text) t) = some (k, v) := by
    rw [hs]; exact pyMaxBy_first_max l₁ l₂ k v h1 h2
  simp [categorize_with_keywords, hm, hv]

theorem categorize_area_not_excluded (text : String) (t : Taxonomy) :
    (categorize_with_keywords text t).jd_area ≠ some "00-09 System" ∧
    (categorize_with_keywords text t).jd_area ≠ some "90-99 Archive" := by
  unfold categorize_with_keywords
  rcases hm : pyMaxBy (scoresList (pyLower text) t) with _ | kv
  · simp [hm]
  · obtain ⟨k, v⟩ := kv
    by_cases hv : 0 < v
    · have hmem := pyMaxBy_mem _ _ hm
      have hex := scoresList_mem_area (pyLower text) t (k, v) hmem
      simp only [hm, hv, if_pos, if_true]
      constructor
      · simp only [ne_eq, Option.some.injEq]
        exact hex.1
      · simp only [ne_eq, Option.some.injEq]
        exact hex.2
    · simp [hm, hv]

/-- C5 (amended): the keyword backend scores each category by counting its
keywords occurring as literal substrings of the lower-cased text and picks
the strictly highest score with ties favoring the first category in
enumeration order, but the reported confidence is always "low" (the
winning-score-at-least-2-means-"medium" rule of the claim is not
implemented). -/
theorem C5_keyword_scoring (text : String) (jd_areas : Taxonomy) :
    (categorize_with_keywords text jd_areas).confidence = "low" ∧
    (∀ (l₁ : List ((String × String) × Nat)) (k : String × String) (v : Nat)
        (l₂ : List ((String × String) × Nat)),
      scoresList (pyLower text) jd_areas = l₁ ++ (k, v) :: l₂ → 0 < v →
      (∀ p ∈ l₁, p.2 < v) → (∀ p ∈ l₂, p.2 ≤ v) →
      (categorize_with_keywords text jd_areas).jd_area = some k.1 ∧
      (categorize_with_keywords text jd_areas).jd_category = some k.2) := by
  constructor
  · unfold categorize_with_keywords
    rcases hm : pyMaxBy (scoresList (pyLower text) jd_areas) with _ | kv
    · simp [hm]
    · obtain ⟨k, v⟩ := kv
      by_cases hv : 0 < v <;> simp [hm, hv]
  · intro l₁ k v l₂ hs hv h1 h2
    exact categorize_winner text jd_areas l₁ k v l₂ hs hv h1 h2

/-- Witness for C5 on a concrete text and taxonomy where one category wins
with score 2 and no tie. -/
theorem C5_keyword_scoring_witness :
    (categorize_with_keywords "receipt purchase"
        [("10-19 Finance", [("14 Receipts", ["receipt", "purchase"])])]).confidence =
      "low" ∧
    (categorize_with_keywords "receipt purchase"
        [("10-19 Finance", [("14 Receipts", ["receipt", "purchase"])])]).jd_area =
      some "10-19 Finance" ∧
    (categorize_with_keywords "receipt purchase"
        [("10-19 Finance", [("14 Receipts", ["receipt", "purchase"])])]).jd_category =
      some "14 Receipts" := by
  have h := C5_keyword_scoring "receipt purchase"
    [("10-19 Finance", [("14 Receipts", ["receipt", "purchase"])])]
  have h2 := h.2 [] (("10-19 Finance", "14 Receipts")) 2 []
    (by decide) (by decide) (by simp) (by simp)
  exact ⟨h.1, h2.1, h2.2⟩

/-- C5 counterexample: on "receipt purchase" the winning category scores 2,
yet the backend reports confidence "low", refuting the claim that a winning
score of at least 2 yields "medium". -/
theorem C5_keyword_scoring_counterexample :
    scoresList (pyLower "receipt purchase")
        [("10-19 Finance", [("14 Receipts", ["receipt", "purchase"])])] =
      [(("10-19 Finance", "14 Receipts"), 2)] ∧
    (categorize_with_keywords "receipt purchase"
        [("10-19 Finance", [("14 Receipts", ["receipt", "purchase"])])]).confidence ≠
      "medium" := by decide

/-- C6 (amended): when every category scores zero (in particular on the empty
string), the keyword backend returns the fixed default pair "50-59 Personal"
/ "54 Memberships"; that pair is a valid pair of the built-in default
taxonomy, but it belongs to the given taxonomy only when that taxonomy
contains it. -/
theorem C6_keyword_default_valid (text : String) (jd_areas : Taxonomy)
    (h : ∀ p ∈ scoresList (pyLower text) jd_areas, p.2 = 0) :
    (categorize_with_keywords text jd_areas).jd_area = some "50-59 Personal" ∧
    (categorize_with_keywords text jd_areas).jd_category = some "54 Memberships" ∧
    validPair JD_AREAS "50-59 Personal" "54 Memberships" = true := by
  obtain ⟨ha, hc⟩ := categorize_zero_default text jd_areas h
  exact ⟨ha, hc, by decide⟩

/-- Witness for C6: classifying the empty string against the default taxonomy
returns the default pair, which is a valid pair of that taxonomy. -/
theorem C6_keyword_default_valid_witness :
    (categorize_with_keywords "" JD_AREAS).jd_area = some "50-59 Personal" ∧
    (categorize_with_keywords "" JD_AREAS).jd_category = some "54 Memberships" ∧
    validPair JD_AREAS "50-59 Personal" "54 Memberships" = true :=
  C6_keyword_default_valid "" JD_AREAS (by decide)

/-- C6 counterexample: against a taxonomy that lacks the default pair, the
keyword backend still returns "50-59 Personal" / "54 Memberships", which is
not a valid pair of that taxonomy. -/
theorem C6_keyword_default_valid_counterexample :
    (categorize_with_keywords "" [("10-19 Finance", [("11 Banking", ["bank"])])]).jd_area =
      some "50-59 Personal" ∧
    (categorize_with_keywords ""
        [("10-19 Finance", [("11 Banking", ["bank"])])]).jd_category =
      some "54 Memberships" ∧
    validPair [("10-19 Finance", [("11 Banking", ["bank"])])]
      "50-59 Personal" "54 Memberships" = false := by decide

/-- C10: the keyword backend never returns the areas "00-09 System" or
"90-99 Archive" — they are excluded from the score table — and the zero-score
default is "50-59 Personal" / "54 Memberships". -/
theorem C10_keyword_excludes_system_archive (text : String) (jd_areas : Taxonomy) :
    ((categorize_with_keywords text jd_areas).jd_area ≠ some "00-09 System" ∧
     (categorize_with_keywords text jd_areas).jd_area ≠ some "90-99 Archive") ∧
    (∀ p ∈ scoresList (pyLower text) jd_areas,
      p.1.1 ≠ "00-09 System" ∧ p.1.1 ≠ "90-99 Archive") ∧
    ((∀ p ∈ scoresList (pyLower text) jd_areas, p.2 = 0) →
      (categorize_with_keywords text jd_areas).jd_area = some "50-59 Personal" ∧
      (categorize_with_keywords text jd_areas).jd_category = some "54 Memberships") :=
  ⟨categorize_area_not_excluded text jd_areas,
   fun p hp => scoresList_mem_area (pyLower text) jd_areas p hp,
   fun h => categorize_zero_default text jd_areas h⟩

/-- Witness for C10 on a taxonomy consisting only of the two excluded areas:
both score rows are empty and the default pair is returned. -/
theorem C10_keyword_excludes_system_archive_witness :
    (categorize_with_keywords "template"
        [("00-09 System", [("02 Templates", ["template"])]),
         ("90-99 Archive", [("91 2024", [])])]).jd_area ≠ some "00-09 System" ∧
    (categorize_with_keywords "template"
        [("00-09 System", [("02 Templates", ["template"])]),
         ("90-99 Archive", [("91 2024", [])])]).jd_area = some "50-59 Personal" := by
  have h := C10_keyword_excludes_system_archive "template"
    [("00-09 System", [("02 Templates", ["template"])]),
     ("90-99 Archive", [("91 2024", [])])]
  exact ⟨h.1.1, (h.2.2 (by decide)).1⟩

/-! ### Validator lemmas -/

theorem isEmpty_false_of_mem {α : Type} {l : List α} {x : α} (h : x ∈ l) :
    l.isEmpty = false := by
  cases l with
  | nil => exact absurd h (by simp)
  | cons a t => rfl

theorem validateCats_mem_mono (area : String) (cats : List String) :
    ∀ errs used (m : String), m ∈ errs → m ∈ (validateCats area cats errs used).1 := by
  induction cats with
  | nil => intro errs used m hm; simpa [validateCats] using hm
  | cons cat rest ih =>
      intro errs used m hm
      simp only [validateCats]
      by_cases hv : is_valid_category_name cat = true
      · simp only [hv, if_true]
        rcases hn : get_category_number cat with _ | n
        · simp only [hn]
          by_cases hb : category_belongs_to_area cat area = true
          · simp only [hb, if_true]
            exact ih _ _ m hm
          · simp only [hb, if_false]
            exact ih _ _ m (by simp [hm])
        · simp only [hn]
          by_cases hb : category_belongs_to_area cat area = true <;>
            by_cases hd : n ∈ used <;>
            simp only [hb, hd, if_true, if_false] <;>
            exact ih _ _ m (by simp [hm])
      · simp only [hv, if_false]
        exact ih _ _ m (by simp [hm])

theorem validateCats_used_mono (area : String) (cats : List String) :
    ∀ errs used (n : Nat), n ∈ used → n ∈ (validateCats area cats errs used).2 := by
  induction cats with
  | nil => intro errs used n hn; simpa [validateCats] using hn
  | cons cat rest ih =>
      intro errs used n hn
      simp only [validateCats]
      by_cases hv : is_valid_category_name cat = true
      · simp only [hv, if_true]
        rcases hm : get_category_number cat with _ | k
        · simp only [hm]
          by_cases hb : category_belongs_to_area cat area = true <;>
            simp only [hb, if_true, if_false] <;> exact ih _ _ n hn
        · simp only [hm]
          by_cases hb : category_belongs_to_area cat area = true <;>
            by_cases hd : k ∈ used <;>
            simp only [hb, hd, if_true, if_false] <;>
            exact ih _ _ n (by simp [hn])
      · simp only [hv, if_false]
        exact ih _ _ n hn

theorem validateCats_invalid_mem (area : String) (cats : List String) :
    ∀ errs used (c : String), c ∈ cats → is_valid_category_name c = false →
      invalidCatNameMsg c area ∈ (validateCats area cats errs used).1 := by
  induction cats with
  | nil => intro errs used c hc _; exact absurd hc (by simp)
  | cons cat rest ih =>
      intro errs used c hc hcv
      rcases List.mem_cons.mp hc with rfl | hc'
      · simp only [validateCats, hcv, Bool.false_eq_true, if_false]
        exact validateCats_mem_mono area rest _ _ _ (by simp)
      · simp only [validateCats]
        by_cases hv : is_valid_category_name cat = true
        · simp only [hv, if_true]
          rcases hn : get_category_number cat with _ | n
          · simp only [hn]
            by_cases hb : category_belongs_to_area cat area = true <;>
              simp only [hb, if_true, if_false] <;> exact ih _ _ c hc' hcv
          · simp only [hn]
            by_cases hb : category_belongs_to_area cat area = true <;>
              by_cases hd : n ∈ used <;>
              simp only [hb, hd, if_true, if_false] <;>
              exact ih _ _ c hc' hcv
        · simp only [hv, if_false]
          exact ih _ _ c hc' hcv

theorem validateCats_outside_mem (area : String) (cats : List String) :
    ∀ errs used (c : String), c ∈ cats → is_valid_category_name c = true →
      category_belongs_to_area c area = false →
      outsideRangeMsg c area ∈ (validateCats area cats errs used).1 := by
  induction cats with
  | nil => intro errs used c hc _ _; exact absurd hc (by simp)
  | cons cat rest ih =>
      intro errs used c hc hcv hcb
      rcases List.mem_cons.mp hc with rfl | hc'
      · simp only [validateCats, hcv, if_true, hcb, Bool.false_eq_true, if_false]
        rcases hn : get_category_number c with _ | n
        · simp only [hn]
          exact validateCats_mem_mono area rest _ _ _ (by simp)
        · simp only [hn]
          by_cases hd : n ∈ used <;> simp only [hd, if_true, if_false] <;>
            exact validateCats_mem_mono area rest _ _ _ (by simp)
      · simp only [validateCats]
        by_cases hv : is_valid_category_name cat = true
        · simp only [hv, if_true]
          rcases hn : get_category_number cat with _ | n
          · simp only [hn]
            by_cases hb : category_belongs_to_area cat area = true <;>
              simp only [hb, if_true, if_false] <;> exact ih _ _ c hc' hcv hcb
          · simp only [hn]
            by_cases hb : category_belongs_to_area cat area = true <;>
              by_cases hd : n ∈ used <;>
              simp only [hb, hd, if_true, if_false] <;>
              exact ih _ _ c hc' hcv hcb
        · simp only [hv, if_false]
          exact ih _ _ c hc' hcv hcb

theorem validateCats_number_recorded (area : String) (cats : List String) :
    ∀ errs used (c : String) (n : Nat), c ∈ cats → is_valid_category_name c = true →
      get_category_number c = some n → n ∈ (validateCats area cats errs used).2 := by
  induction cats with
  | nil => intro errs used c n hc _ _; exact absurd hc (by simp)
  | cons cat rest ih =>
      intro errs used c n hc hcv hcn
      rcases List.mem_cons.mp hc with rfl | hc'
      · simp only [validateCats, hcv, if_true, hcn]
        by_cases hb : category_belongs_to_area c area = true <;>
          by_cases hd : n ∈ used <;>
          simp only [hb, hd, if_true, if_false] <;>
          exact validateCats_used_mono area rest _ _ n (by simp [hd])
      · simp only [validateCats]
        by_cases hv : is_valid_category_name cat = true
        · simp only [hv, if_true]
          rcases hn : get_category_number cat with _ | k
          · simp only [hn]
            by_cases hb : category_belongs_to_area cat area = true <;>
              simp only [hb, if_true, if_false] <;> exact ih _ _ c n hc' hcv hcn
          · simp only [hn]
            by_cases hb : category_belongs_to_area cat area = true <;>
              by_cases hd : k ∈ used <;>
              simp only [hb, hd, if_true, if_false] <;>
              exact ih _ _ c n hc' hcv hcn
        · simp only [hv, if_false]
          exact ih _ _ c n hc' hcv hcn

theorem validateCats_dup_mem (area : String) (cats : List String) :
    ∀ errs used (c : String) (n : Nat), c ∈ cats → is_valid_category_name c = true →
      get_category_number c = some n → n ∈ used →
      dupCatNumMsg n area ∈ (validateCats area cats errs used).1 := by
  induction cats with
  | nil => intro errs used c n hc _ _ _; exact absurd hc (by simp)
  | cons cat rest ih =>
      intro errs used c n hc hcv hcn hused
      rcases List.mem_cons.mp hc with rfl | hc'
      · simp only [validateCats, hcv, if_true, hcn, hused, if_true]
        by_cases hb : category_belongs_to_area c area = true <;>
          simp only [hb, if_true, if_false] <;>
          exact validateCats_mem_mono area rest _ _ _ (by simp)
      · simp only [validateCats]
        by_cases hv : is_valid_category_name cat = true
        · simp only [hv, if_true]
          rcases hn : get_category_number cat with _ | k
          · simp only [hn]
            by_cases hb : category_belongs_to_area cat area = true <;>
              simp only [hb, if_true, if_false] <;> exact ih _ _ c n hc' hcv hcn hused
          · simp only [hn]
            by_cases hb : category_belongs_to_area cat area = true <;>
              by_cases hd : k ∈ used <;>
              simp only [hb, hd, if_true, if_false] <;>
              exact ih _ _ c n hc' hcv hcn (by simp [hused])
        · simp only [hv, if_false]
          exact ih _ _ c n hc' hcv hcn hused

theorem validateCats_split (area : String) (l m : List String) :
    ∀ errs used, validateCats area (l ++ m) errs used =
      validateCats area m (validateCats area l errs used).1
        (validateCats area l errs used).2 := by
  induction l with
  | nil => intro errs used; simp [validateCats]
  | cons cat rest ih =>
      intro errs used
      simp only [List.cons_append, validateCats]
      by_cases hv : is_valid_category_name cat = true
      · simp only [hv, if_true]
        rcases hn : get_category_number cat with _ | n
        · simp only [hn]
          by_cases hb : category_belongs_to_area cat area = true <;>
            simp only [hb, if_true, if_false] <;> exact ih _ _
        · simp only [hn]
          by_cases hb : category_belongs_to_area cat area = true <;>
            by_cases hd : n ∈ used <;>
            simp only [hb, hd, if_true, if_false] <;> exact ih _ _
      · simp only [hv, if_false]
        exact ih _ _

theorem validateCats_dup_pair (area : String) (m1 m2 m3 : List String)
    (c1 c2 : String) (n : Nat)
    (h1v : is_valid_category_name c1 = true) (h2v : is_valid_category_name c2 = true)
    (h1n : get_category_number c1 = some n) (h2n : get_category_number c2 = some n) :
    ∀ errs used, dupCatNumMsg n area ∈
      (validateCats area (m1 ++ c1 :: m2 ++ c2 :: m3) errs used).1 := by
  intro errs used
  have e1 : m1 ++ c1 :: m2 ++ c2 :: m3 = m1 ++ ((c1 :: m2) ++ (c2 :: m3)) := by simp
  rw [e1, validateCats_split, validateCats_split]
  apply validateCats_dup_mem area (c2 :: m3) _ _ c2 n (by simp) h2v h2n
  exact validateCats_number_recorded area (c1 :: m2) _ _ c1 n (by simp) h1v h1n

theorem validateAreas_mem_mono (areas : List (String × List String)) :
    ∀ errs used (m : String), m ∈ errs → m ∈ (validateAreas areas errs used).1 := by
  induction areas with
  | nil => intro errs used m hm; simpa [validateAreas] using hm
  | cons p rest ih =>
      obtain ⟨name, cats⟩ := p
      intro errs used m hm
      simp only [validateAreas]
      by_cases hv : is_valid_area_name name = true
      · simp only [hv, if_true]
        rcases hr : get_area_range name with _ | r
        · simp only [hr]
          by_cases hl : 10 < cats.length <;> simp only [hl, if_true, if_false] <;>
            exact ih _ _ m (validateCats_mem_mono _ _ _ _ m (by simp [hm]))
        · simp only [hr]
          by_cases hd : r ∈ used <;> by_cases hvr : r ∈ VALID_AREA_RANGES <;>
            by_cases hl : 10 < cats.length <;>
            simp only [hd, hvr, hl, if_true, if_false] <;>
            exact ih _ _ m (validateCats_mem_mono _ _ _ _ m (by simp [hm]))
      · simp only [hv, if_false]
        exact ih _ _ m (by simp [hm])

theorem validateAreas_used_mono (areas : List (String × List String)) :
    ∀ errs used (r : Nat × Nat), r ∈ used → r ∈ (validateAreas areas errs used).2 := by
  induction areas with
  | nil => intro errs used r hr; simpa [validateAreas] using hr
  | cons p rest ih =>
      obtain ⟨name, cats⟩ := p
      intro errs used r hr
      simp only [validateAreas]
      by_cases hv : is_valid_area_name name = true
      · simp only [hv, if_true]
        rcases hg : get_area_range name with _ | r'
        · simp only [hg]
          by_cases hl : 10 < cats.length <;> simp only [hl, if_true, if_false] <;>
            exact ih _ _ r hr
        · simp only [hg]
          by_cases hd : r' ∈ used <;> by_cases hvr : r' ∈ VALID_AREA_RANGES <;>
            by_cases hl : 10 < cats.length <;>
            simp only [hd, hvr, hl, if_true, if_false] <;>
            exact ih _ _ r (by simp [hr])
      · simp only [hv, if_false]
        exact ih _ _ r hr

theorem validateAreas_invalid_mem (areas : List (String × List String)) :
    ∀ errs used (name : String) (cats : List String), (name, cats) ∈ areas →
      is_valid_area_name name = false →
      invalidAreaNameMsg name ∈ (validateAreas areas errs used).1 := by
  induction areas with
  | nil => intro errs used name cats hm _; exact absurd hm (by simp)
  | cons p rest ih =>
      obtain ⟨pname, pcats⟩ := p
      intro errs used name cats hm hnv
      rcases List.mem_cons.mp hm with heq | hm'
      · injection heq with h1 h2
        subst h1
        subst h2
        simp only [validateAreas, hnv, Bool.false_eq_true, if_false]
        exact validateAreas_mem_mono rest _ _ _ (by simp)
      · simp only [validateAreas]
        by_cases hv : is_valid_area_name pname = true
        · simp only [hv, if_true]
          rcases hg : get_area_range pname with _ | r
          · simp only [hg]
            by_cases hl : 10 < pcats.length <;> simp only [hl, if_true, if_false] <;>
              exact ih _ _ name cats hm' hnv
          · simp only [hg]
            by_cases hd : r ∈ used <;> by_cases hvr : r ∈ VALID_AREA_RANGES <;>
              by_cases hl : 10 < pcats.length <;>
              simp only [hd, hvr, hl, if_true, if_false] <;>
              exact ih _ _ name cats hm' hnv
        · simp only [hv, if_false]
          exact ih _ _ name cats hm' hnv

theorem validateAreas_catcount_mem (areas : List (String × List String)) :
    ∀ errs used (name : String) (cats : List String), (name, cats) ∈ areas →
      is_valid_area_name name = true → 10 < cats.length →
      tooManyCatsMsg name cats.length ∈ (validateAreas areas errs used).1 := by
  induction areas with
  | nil => intro errs used name cats hm _ _; exact absurd hm (by simp)
  | cons p rest ih =>
      obtain ⟨pname, pcats⟩ := p
      intro errs used name cats hm hv hl
      rcases List.mem_cons.mp hm with heq | hm'
      · injection heq with h1 h2
        subst h1
        subst h2
        simp only [validateAreas, hv, if_true, hl, if_true]
        rcases hg : get_area_range name with _ | r
        · simp only [hg]
          exact validateAreas_mem_mono rest _ _ _
            (validateCats_mem_mono _ _ _ _ _ (by simp))
        · simp only [hg]
          by_cases hd : r ∈ used <;> by_cases hvr : r ∈ VALID_AREA_RANGES <;>
            simp only [hd, hvr, if_true, if_false] <;>
            exact validateAreas_mem_mono rest _ _ _
              (validateCats_mem_mono _ _ _ _ _ (by simp))
      · simp only [validateAreas]
        by_cases hpv : is_valid_area_name pname = true
        · simp only [hpv, if_true]
          rcases hg : get_area_range pname with _ | r
          · simp only [hg]
            by_cases hpl : 10 < pcats.length <;> simp only [hpl, if_true, if_false] <;>
              exact ih _ _ name cats hm' hv hl
          · simp only [hg]
            by_cases hd : r ∈ used <;> by_cases hvr : r ∈ VALID_AREA_RANGES <;>
              by_cases hpl : 10 < pcats.length <;>
              simp only [hd, hvr, hpl, if_true, if_false] <;>
              exact ih _ _ name cats hm' hv hl
        · simp only [hpv, if_false]
          exact ih _ _ name cats hm' hv hl

theorem validateAreas_cons_from_tail (pname : String) (pcats : List String)
    (rest : List (String × List String)) (m : String)
    (h : ∀ e u, m ∈ (validateAreas rest e u).1) :
    ∀ errs used, m ∈ (validateAreas ((pname, pcats) :: rest) errs used).1 := by
  intro errs used
  simp only [validateAreas]
  by_cases hv : is_valid_area_name pname = true
  · simp only [hv, if_true]
    exact h _ _
  · simp only [hv, if_false]
    exact h _ _

theorem validateAreas_cons_used_from_tail (pname : String) (pcats : List String)
    (rest : List (String × List String)) (r : Nat × Nat)
    (h : ∀ e u, r ∈ (validateAreas rest e u).2) :
    ∀ errs used, r ∈ (validateAreas ((pname, pcats) :: rest) errs used).2 := by
  intro errs used
  simp only [validateAreas]
  by_cases hv : is_valid_area_name pname = true
  · simp only [hv, if_true]
    exact h _ _
  · simp only [hv, if_false]
    exact h _ _

theorem validateAreas_invalidRange_mem (areas : List (String × List String)) :
    ∀ errs used (name : String) (cats : List String) (r : Nat × Nat),
      (name, cats) ∈ areas → is_valid_area_name name = true →
      get_area_range name = some r → r ∉ VALID_AREA_RANGES →
      invalidRangeMsg name ∈ (validateAreas areas errs used).1 := by
  induction areas with
  | nil => intro errs used name cats r hm _ _ _; exact absurd hm (by simp)
  | cons p rest ih =>
      obtain ⟨pname, pcats⟩ := p
      intro errs used name cats r hm hv hg hvr
      rcases List.mem_cons.mp hm with heq | hm'
      · injection heq with h1 h2
        subst h1
        subst h2
        simp only [validateAreas, hv, if_true, hg]
        apply validateAreas_mem_mono rest
        apply validateCats_mem_mono
        by_cases hd : r ∈ used <;> by_cases hl : 10 < cats.length <;>
          simp [hd, hl, if_neg hvr]
      · exact validateAreas_cons_from_tail pname pcats rest _
          (fun e u => ih e u name cats r hm' hv hg hvr) errs used

theorem validateAreas_range_recorded (areas : List (String × List String)) :
    ∀ errs used (name : String) (cats : List String) (r : Nat × Nat),
      (name, cats) ∈ areas → is_valid_area_name name = true →
      get_area_range name = some r → r ∈ (validateAreas areas errs used).2 := by
  induction areas with
  | nil => intro errs used name cats r hm _ _; exact absurd hm (by simp)
  | cons p rest ih =>
      obtain ⟨pname, pcats⟩ := p
      intro errs used name cats r hm hv hg
      rcases List.mem_cons.mp hm with heq | hm'
      · injection heq with h1 h2
        subst h1
        subst h2
        simp only [validateAreas, hv, if_true, hg]
        apply validateAreas_used_mono rest
        by_cases hd : r ∈ used <;> simp [hd]
      · exact validateAreas_cons_used_from_tail pname pcats rest _
          (fun e u => ih e u name cats r hm' hv hg) errs used

theorem validateAreas_dupRange_mem (areas : List (String × List String)) :
    ∀ errs used (name : String) (cats : List String) (r : Nat × Nat),
      (name, cats) ∈ areas → is_valid_area_name name = true →
      get_area_range name = some r → r ∈ used →
      dupRangeMsg name ∈ (validateAreas areas errs used).1 := by
  induction areas with
  | nil => intro errs used name cats r hm _ _ _; exact absurd hm (by simp)
  | cons p rest ih =>
      obtain ⟨pname, pcats⟩ := p
      intro errs used name cats r hm hv hg hused
      rcases List.mem_cons.mp hm with heq | hm'
      · injection heq with h1 h2
        subst h1
        subst h2
        simp only [validateAreas, hv, if_true, hg, hused, if_true]
        apply validateAreas_mem_mono rest
        apply validateCats_mem_mono
        by_cases hvr : r ∈ VALID_AREA_RANGES <;> by_cases hl : 10 < cats.length <;>
          simp [hvr, hl]
      · simp only [validateAreas]
        by_cases hpv : is_valid_area_name pname = true
        · simp only [hpv, if_true]
          rcases hpg : get_area_range pname with _ | r'
          · simp only [hpg]
            exact ih _ _ name cats r hm' hv hg hused
          · simp only [hpg]
            by_cases hpd : r' ∈ used <;> simp only [hpd, if_true, if_false] <;>
              exact ih _ _ name cats r hm' hv hg (by simp [hused])
        · simp only [hpv, if_false]
          exact ih _ _ name cats r hm' hv hg hused

theorem validateAreas_split (l m : List (String × List String)) :
    ∀ errs used, validateAreas (l ++ m) errs used =
      validateAreas m (validateAreas l errs used).1 (validateAreas l errs used).2 := by
  induction l with
  | nil => intro errs used; simp [validateAreas]
  | cons p rest ih =>
      obtain ⟨pname, pcats⟩ := p
      intro errs used
      simp only [List.cons_append, validateAreas]
      by_cases hv : is_valid_area_name pname = true
      · simp only [hv, if_true]
        exact ih _ _
      · simp only [hv, if_false]
        exact ih _ _

theorem validateAreas_dup_pair (l1 l2 l3 : List (String × List String))
    (name1 name2 : String) (cats1 cats2 : List String) (r : Nat × Nat)
    (h1v : is_valid_area_name name1 = true) (h2v : is_valid_area_name name2 = true)
    (h1g : get_area_range name1 = some r) (h2g : get_area_range name2 = some r) :
    ∀ errs used, dupRangeMsg name2 ∈
      (validateAreas (l1 ++ (name1, cats1) :: l2 ++ (name2, cats2) :: l3) errs used).1 := by
  intro errs used
  have e1 : l1 ++ (name1, cats1) :: l2 ++ (name2, cats2) :: l3 =
      l1 ++ (((name1, cats1) :: l2) ++ ((name2, cats2) :: l3)) := by simp
  rw [e1, validateAreas_split, validateAreas_split]
  apply validateAreas_dupRange_mem ((name2, cats2) :: l3) _ _ name2 cats2 r
    (by simp) h2v h2g
  exact validateAreas_range_recorded ((name1, cats1) :: l2) _ _ name1 cats1 r
    (by simp) h1v h1g

theorem validateAreas_catmsg_mem (areas : List (String × List String)) :
    ∀ errs used (name : String) (cats : List String) (msg : String),
      (name, cats) ∈ areas → is_valid_area_name name = true →
      (∀ e u, msg ∈ (validateCats name cats e u).1) →
      msg ∈ (validateAreas areas errs used).1 := by
  induction areas with
  | nil => intro errs used name cats msg hm _ _; exact absurd hm (by simp)
  | cons p rest ih =>
      obtain ⟨pname, pcats⟩ := p
      intro errs used name cats msg hm hv hmsg
      rcases List.mem_cons.mp hm with heq | hm'
      · injection heq with h1 h2
        subst h1
        subst h2
        simp only [validateAreas, hv, if_true]
        apply validateAreas_mem_mono rest
        exact hmsg _ _
      · exact validateAreas_cons_from_tail pname pcats rest _
          (fun e u => ih e u name cats msg hm' hv hmsg) errs used

/-- C4 (amended): any taxonomy with more than 9 non-system areas fails
validation with a violation stating the area count; and any area whose name
is well-formed and holds more than 10 categories fails validation with a
violation stating the category count.  (A malformed area name suppresses that
area's category-count check, which the counterexample exhibits.) -/
theorem C4_validator_count_soundness (areas : List (String × List String)) :
    (9 < (areas.filter (fun p => !(pyStartsWith p.1 "00-09"))).length →
      (validate_structure areas).1 = false ∧
      tooManyAreasMsg (areas.filter (fun p => !(pyStartsWith p.1 "00-09"))).length ∈
        (validate_structure areas).2) ∧
    (∀ (name : String) (cats : List String), (name, cats) ∈ areas →
      is_valid_area_name name = true → 10 < cats.length →
      (validate_structure areas).1 = false ∧
      tooManyCatsMsg name cats.length ∈ (validate_structure areas).2) := by
  constructor
  · intro hcount
    have hmem : tooManyAreasMsg
        (areas.filter (fun p => !(pyStartsWith p.1 "00-09"))).length ∈
        (validate_structure areas).2 := by
      show _ ∈ (validateAreas areas _ []).1
      apply validateAreas_mem_mono
      rw [if_pos hcount]
      simp
    exact ⟨isEmpty_false_of_mem hmem, hmem⟩
  · intro name cats hm hv hl
    have hmem : tooManyCatsMsg name cats.length ∈ (validate_structure areas).2 := by
      show _ ∈ (validateAreas areas _ []).1
      exact validateAreas_catcount_mem areas _ _ name cats hm hv hl
    exact ⟨isEmpty_false_of_mem hmem, hmem⟩

/-- Witness for C4: ten single-letter area names trip the area-count check,
and a well-formed area with eleven categories trips the category-count
check. -/
theorem C4_validator_count_soundness_witness :
    ((validate_structure [("a", []), ("b", []), ("c", []), ("d", []), ("e", []),
        ("f", []), ("g", []), ("h", []), ("i", []), ("j", [])]).1 = false ∧
      tooManyAreasMsg 10 ∈ (validate_structure [("a", []), ("b", []), ("c", []),
        ("d", []), ("e", []), ("f", []), ("g", []), ("h", []), ("i", []),
        ("j", [])]).2) ∧
    ((validate_structure [("10-19 Finance", ["10 a", "11 a", "12 a", "13 a",
        "14 a", "15 a", "16 a", "17 a", "18 a", "19 a", "20 a"])]).1 = false ∧
      tooManyCatsMsg "10-19 Finance" 11 ∈ (validate_structure [("10-19 Finance",
        ["10 a", "11 a", "12 a", "13 a", "14 a", "15 a", "16 a", "17 a", "18 a",
         "19 a", "20 a"])]).2) := by
  constructor
  · have h := (C4_validator_count_soundness [("a", []), ("b", []), ("c", []),
      ("d", []), ("e", []), ("f", []), ("g", []), ("h", []), ("i", []),
      ("j", [])]).1 (by decide)
    exact h
  · have h := (C4_validator_count_soundness [("10-19 Finance", ["10 a", "11 a",
      "12 a", "13 a", "14 a", "15 a", "16 a", "17 a", "18 a", "19 a",
      "20 a"])]).2 "10-19 Finance" ["10 a", "11 a", "12 a", "13 a", "14 a",
      "15 a", "16 a", "17 a", "18 a", "19 a", "20 a"] (by simp) (by decide)
      (by decide)
    exact h

/-- C4 counterexample: an area named "bad" with eleven categories yields
not-ok, but no violation mentions the category count — the malformed name
short-circuits that area's category checks. -/
theorem C4_validator_count_soundness_counterexample :
    (validate_structure [("bad", ["10 a", "11 a", "12 a", "13 a", "14 a",
        "15 a", "16 a", "17 a", "18 a", "19 a", "20 a"])]).1 = false ∧
    (["10 a", "11 a", "12 a", "13 a", "14 a", "15 a", "16 a", "17 a", "18 a",
      "19 a", "20 a"] : List String).length = 11 ∧
    ((validate_structure [("bad", ["10 a", "11 a", "12 a", "13 a", "14 a",
        "15 a", "16 a", "17 a", "18 a", "19 a", "20 a"])]).2.any
      (fun e => pyContains e "Too many categories")) = false := by decide

/-- C8 (amended): the validator accumulates violations rather than stopping
at the first — the area-count check, the format checks, and for every area
whose name is well-formed the range-legality, range-uniqueness,
category-count, category-format, category-membership and category-number
uniqueness checks all report into one list in a single call.  However, an
area whose name fails the format check contributes only the format violation
(its range and category checks are skipped), and a category whose name fails
the format check skips its membership and uniqueness checks. -/
theorem C8_validator_collects_all_violations (areas : List (String × List String)) :
    (9 < (areas.filter (fun p => !(pyStartsWith p.1 "00-09"))).length →
      tooManyAreasMsg (areas.filter (fun p => !(pyStartsWith p.1 "00-09"))).length ∈
        (validate_structure areas).2) ∧
    (∀ (name : String) (cats : List String), (name, cats) ∈ areas →
      is_valid_area_name name = false →
      invalidAreaNameMsg name ∈ (validate_structure areas).2) ∧
    (∀ (name : String) (cats : List String), (name, cats) ∈ areas →
      is_valid_area_name name = true → 10 < cats.length →
      tooManyCatsMsg name cats.length ∈ (validate_structure areas).2) ∧
    (∀ (name : String) (cats : List String) (r : Nat × Nat), (name, cats) ∈ areas →
      is_valid_area_name name = true → get_area_range name = some r →
      r ∉ VALID_AREA_RANGES →
      invalidRangeMsg name ∈ (validate_structure areas).2) ∧
    (∀ (l1 l2 l3 : List (String × List String)) (name1 name2 : String)
        (cats1 cats2 : List String) (r : Nat × Nat),
      areas = l1 ++ (name1, cats1) :: l2 ++ (name2, cats2) :: l3 →
      is_valid_area_name name1 = true → is_valid_area_name name2 = true →
      get_area_range name1 = some r → get_area_range name2 = some r →
      dupRangeMsg name2 ∈ (validate_structure areas).2) ∧
    (∀ (name : String) (cats : List String) (c : String), (name, cats) ∈ areas →
      is_valid_area_name name = true → c ∈ cats →
      is_valid_category_name c = false →
      invalidCatNameMsg c name ∈ (validate_structure areas).2) ∧
    (∀ (name : String) (cats : List String) (c : String), (name, cats) ∈ areas →
      is_valid_area_name name = true → c ∈ cats →
      is_valid_category_name c = true → category_belongs_to_area c name = false →
      outsideRangeMsg c name ∈ (validate_structure areas).2) ∧
    (∀ (name : String) (cats m1 m2 m3 : List String) (c1 c2 : String) (n : Nat),
      (name, cats) ∈ areas → is_valid_area_name name = true →
      cats = m1 ++ c1 :: m2 ++ c2 :: m3 →
      is_valid_category_name c1 = true → is_valid_category_name c2 = true →
      get_category_number c1 = some n → get_category_number c2 = some n →
      dupCatNumMsg n name ∈ (validate_structure areas).2) := by
  refine ⟨?_, ?_, ?_, ?_, ?_, ?_, ?_, ?_⟩
  · intro hcount
    show _ ∈ (validateAreas areas _ []).1
    apply validateAreas_mem_mono
    rw [if_pos hcount]
    simp
  · intro name cats hm hnv
    show _ ∈ (validateAreas areas _ []).1
    exact validateAreas_invalid_mem areas _ _ name cats hm hnv
  · intro name cats hm hv hl
    show _ ∈ (validateAreas areas _ []).1
    exact validateAreas_catcount_mem areas _ _ name cats hm hv hl
  · intro name cats r hm hv hg hvr
    show _ ∈ (validateAreas areas _ []).1
    exact validateAreas_invalidRange_mem areas _ _ name cats r hm hv hg hvr
  · intro l1 l2 l3 name1 name2 cats1 cats2 r hsplit h1v h2v h1g h2g
    show _ ∈ (validateAreas areas _ []).1
    rw [hsplit]
    exact validateAreas_dup_pair l1 l2 l3 name1 name2 cats1 cats2 r h1v h2v h1g h2g _ _
  · intro name cats c hm hv hc hcv
    show _ ∈ (validateAreas areas _ []).1
    exact validateAreas_catmsg_mem areas _ _ name cats _ hm hv
      (fun e u => validateCats_invalid_mem name cats e u c hc hcv)
  · intro name cats c hm hv hc hcv hcb
    show _ ∈ (validateAreas areas _ []).1
    exact validateAreas_catmsg_mem areas _ _ name cats _ hm hv
      (fun e u => validateCats_outside_mem name cats e u c hc hcv hcb)
  · intro name cats m1 m2 m3 c1 c2 n hm hv hsplit h1v h2v h1n h2n
    show _ ∈ (validateAreas areas _ []).1
    apply validateAreas_catmsg_mem areas _ _ name cats _ hm hv
    intro e u
    rw [hsplit]
    exact validateCats_dup_pair name m1 m2 m3 c1 c2 n h1v h2v h1n h2n e u

/-- Witness for C8: one call reports an out-of-range category and a
duplicated category number together. -/
theorem C8_validator_collects_all_violations_witness :
    outsideRangeMsg "25 Strange" "10-19 Finance" ∈
      (validate_structure [("10-19 Finance", ["25 Strange", "11 a", "11 b"])]).2 ∧
    dupCatNumMsg 11 "10-19 Finance" ∈
      (validate_structure [("10-19 Finance", ["25 Strange", "11 a", "11 b"])]).2 := by
  have h := C8_validator_collects_all_violations
    [("10-19 Finance", ["25 Strange", "11 a", "11 b"])]
  constructor
  · exact h.2.2.2.2.2.2.1 "10-19 Finance" ["25 Strange", "11 a", "11 b"]
      "25 Strange" (by simp) (by decide) (by simp) (by decide) (by decide)
  · exact h.2.2.2.2.2.2.2 "10-19 Finance" ["25 Strange", "11 a", "11 b"]
      ["25 Strange"] [] [] "11 a" "11 b" 11 (by simp) (by decide) (by decide)
      (by decide) (by decide) (by decide) (by decide)

/-- C8 counterexample: an area named "x" with eleven categories is a
violation of the category-count rule that is present but not reported — the
validator returns not-ok with only the name-format violation. -/
theorem C8_validator_collects_all_violations_counterexample :
    (validate_structure [("x", ["30 a", "31 a", "32 a", "33 a", "34 a", "35 a",
        "36 a", "37 a", "38 a", "39 a", "40 a"])]).1 = false ∧
    (["30 a", "31 a", "32 a", "33 a", "34 a", "35 a", "36 a", "37 a", "38 a",
      "39 a", "40 a"] : List String).length = 11 ∧
    ((validate_structure [("x", ["30 a", "31 a", "32 a", "33 a", "34 a", "35 a",
        "36 a", "37 a", "38 a", "39 a", "40 a"])]).2.any
      (fun e => pyContains e "Too many categories")) = false := by decide

/-! ### Organizer and duplicate-index lemmas -/

/-- C3: when the source's hash is in the duplicate index and the recorded
path still exists (a live index hit, which is what the DuplicateIndex lookup
of the spec reports as a duplicate), processing fails with the
duplicate outcome and mutates nothing: the duplicate index, allocator state,
search index, sidecars and JDex entries are unchanged, and no file is moved —
only the inbox copy of the duplicate is deleted, which the spec itself
mandates ("caller must remove the source"). -/
theorem C3_duplicate_fails_without_mutation (w : World)
    (output_dir file_path : String) (extraction : Option String)
    (jd_areas : Taxonomy) (curYear nowIso : String) (h p : String)
    (hsrc : alookup w.files file_path = some h)
    (hidx : alookup w.hashIndex h = some p)
    (hlive : (alookup w.files p).isSome = true) :
    (process_file w output_dir file_path extraction jd_areas curYear nowIso).1 =
      ProcessResult.duplicateOf p ∧
    (process_file w output_dir file_path extraction jd_areas curYear nowIso).2.hashIndex =
      w.hashIndex ∧
    (process_file w output_dir file_path extraction jd_areas curYear nowIso).2.idState =
      w.idState ∧
    (process_file w output_dir file_path extraction jd_areas curYear nowIso).2.searchIndex =
      w.searchIndex ∧
    (process_file w output_dir file_path extraction jd_areas curYear nowIso).2.sidecars =
      w.sidecars ∧
    (process_file w output_dir file_path extraction jd_areas curYear nowIso).2.jdexEntries =
      w.jdexEntries ∧
    (process_file w output_dir file_path extraction jd_areas curYear nowIso).2.files =
      w.files.filter (fun q => q.1 ≠ file_path) := by
  have hfd : find_duplicate_in_index w file_path = (some p, w) := by
    unfold find_duplicate_in_index get_file_hash
    rw [hsrc]
    simp only [Option.getD_some, hidx, hlive, if_true]
  unfold process_file
  rw [hfd]
  exact ⟨rfl, rfl, rfl, rfl, rfl, rfl, rfl⟩

/-- Witness for C3 on a concrete world: the inbox copy shares its hash with a
live library file, so processing reports the duplicate and only the inbox
copy disappears. -/
theorem C3_duplicate_fails_without_mutation_witness :
    (process_file
      ⟨[("inbox/a.pdf", "h1"), ("lib/b.pdf", "h1")], [("h1", "lib/b.pdf")],
       [("14 Receipts", ⟨2, [("Amazon_2024", "14.01")]⟩)], [], [], []⟩
      "out" "inbox/a.pdf" (some "text") JD_AREAS "2025" "2025-01-01").1 =
      ProcessResult.duplicateOf "lib/b.pdf" ∧
    (process_file
      ⟨[("inbox/a.pdf", "h1"), ("lib/b.pdf", "h1")], [("h1", "lib/b.pdf")],
       [("14 Receipts", ⟨2, [("Amazon_2024", "14.01")]⟩)], [], [], []⟩
      "out" "inbox/a.pdf" (some "text") JD_AREAS "2025" "2025-01-01").2.idState =
      [("14 Receipts", ⟨2, [("Amazon_2024", "14.01")]⟩)] ∧
    (process_file
      ⟨[("inbox/a.pdf", "h1"), ("lib/b.pdf", "h1")], [("h1", "lib/b.pdf")],
       [("14 Receipts", ⟨2, [("Amazon_2024", "14.01")]⟩)], [], [], []⟩
      "out" "inbox/a.pdf" (some "text") JD_AREAS "2025" "2025-01-01").2.files =
      [("lib/b.pdf", "h1")] := by
  have h := C3_duplicate_fails_without_mutation
    ⟨[("inbox/a.pdf", "h1"), ("lib/b.pdf", "h1")], [("h1", "lib/b.pdf")],
     [("14 Receipts", ⟨2, [("Amazon_2024", "14.01")]⟩)], [], [], []⟩
    "out" "inbox/a.pdf" (some "text") JD_AREAS "2025" "2025-01-01"
    "h1" "lib/b.pdf" (by decide) (by decide) (by decide)
  refine ⟨h.1, h.2.2.1, ?_⟩
  rw [h.2.2.2.2.2.2]
  decide

theorem contains_iff_mem_str (l : List String) (s : String) :
    l.contains s = true ↔ s ∈ l := by simp

theorem alookup_append_singleton_isSome {α : Type} (l : List (String × α))
    (k h : String) (v : α) :
    (alookup (l ++ [(k, v)]) h).isSome = true ↔
      (alookup l h).isSome = true ∨ h = k := by
  by_cases hk : h = k
  · subst hk
    rw [alookup_append_singleton]
    by_cases hs : (alookup l h).isSome = true
    · simp [hs]
    · simp only [hs, Bool.false_eq_true, if_false]
      simp
  · rw [alookup_append_singleton_other l k h v hk]
    simp [hk]

theorem alookup_filter_key {α : Type} (l : List (String × α)) (f : String → Bool)
    (k : String) :
    alookup (l.filter (fun p => f p.1)) k = if f k then alookup l k else none := by
  induction l with
  | nil => simp [alookup]
  | cons p t ih =>
      rw [List.filter_cons]
      by_cases hp : f p.1 = true
      · rw [if_pos hp, alookup]
        by_cases hk : p.1 = k
        · rw [if_pos hk, alookup, if_pos hk, if_pos (hk ▸ hp)]
        · rw [if_neg hk, ih, alookup, if_neg hk]
      · rw [if_neg hp, ih]
        by_cases hfk : f k = true
        · rw [if_pos hfk, if_pos hfk, alookup,
            if_neg (show ¬ p.1 = k from fun hc => hp (by rw [hc]; exact hfk))]
        · rw [if_neg hfk, if_neg hfk]

theorem observedHashes_cons_pos (f : LibFile) (rest : List LibFile)
    (h : includeInScan f = true) :
    observedHashes (f :: rest) = f.hash :: observedHashes rest := by
  simp [observedHashes, List.filter_cons, h]

theorem observedHashes_cons_neg (f : LibFile) (rest : List LibFile)
    (h : includeInScan f = false) :
    observedHashes (f :: rest) = observedHashes rest := by
  simp [observedHashes, List.filter_cons, h]

theorem hashScan_found_mem (lib : List LibFile) :
    ∀ idx found (h : String),
      h ∈ (hashScan lib idx found).2 ↔ h ∈ found ∨ h ∈ observedHashes lib := by
  induction lib with
  | nil => intro idx found h; simp [hashScan, observedHashes]
  | cons f rest ih =>
      intro idx found h
      by_cases hin : includeInScan f = true
      · simp only [hashScan, hin, if_true]
        rw [ih, observedHashes_cons_pos f rest hin]
        by_cases hc : found.contains f.hash = true
        · rw [if_pos hc]
          have hmem := (contains_iff_mem_str found f.hash).mp hc
          constructor
          · rintro (hf | ho)
            · exact Or.inl hf
            · exact Or.inr (by simp [ho])
          · rintro (hf | ho)
            · exact Or.inl hf
            · rcases List.mem_cons.mp ho with rfl | ho'
              · exact Or.inl hmem
              · exact Or.inr ho'
        · rw [if_neg hc]
          constructor
          · rintro (hf | ho)
            · rcases List.mem_append.mp hf with hf' | hf'
              · exact Or.inl hf'
              · simp at hf'
                exact Or.inr (by simp [hf'])
            · exact Or.inr (by simp [ho])
          · rintro (hf | ho)
            · exact Or.inl (by simp [hf])
            · rcases List.mem_cons.mp ho with rfl | ho'
              · exact Or.inl (by simp)
              · exact Or.inr ho'
      · simp only [hashScan, hin, Bool.false_eq_true, if_false]
        rw [ih, observedHashes_cons_neg f rest (by simpa using hin)]

theorem hashScan_idx_isSome (lib : List LibFile) :
    ∀ idx found (h : String),
      (alookup (hashScan lib idx found).1 h).isSome = true ↔
        (alookup idx h).isSome = true ∨ h ∈ observedHashes lib := by
  induction lib with
  | nil => intro idx found h; simp [hashScan, observedHashes]
  | cons f rest ih =>
      intro idx found h
      by_cases hin : includeInScan f = true
      · simp only [hashScan, hin, if_true]
        rw [ih, observedHashes_cons_pos f rest hin]
        by_cases hs : (alookup idx f.hash).isSome = true
        · rw [if_pos hs]
          constructor
          · rintro (hi | ho)
            · exact Or.inl hi
            · exact Or.inr (by simp [ho])
          · rintro (hi | ho)
            · exact Or.inl hi
            · rcases List.mem_cons.mp ho with rfl | ho'
              · exact Or.inl hs
              · exact Or.inr ho'
        · rw [if_neg hs]
          rw [alookup_append_singleton_isSome]
          constructor
          · rintro (⟨hi | he⟩ | ho)
            · exact Or.inl hi
            · exact Or.inr (by simp [he])
            · exact Or.inr (by simp [ho])
          · rintro (hi | ho)
            · exact Or.inl (Or.inl hi)
            · rcases List.mem_cons.mp ho with rfl | ho'
              · exact Or.inl (Or.inr rfl)
              · exact Or.inr ho'
      · simp only [hashScan, hin, Bool.false_eq_true, if_false]
        rw [ih, observedHashes_cons_neg f rest (by simpa using hin)]

theorem build_hash_index_isSome (lib : List LibFile)
    (prev : List (String × String)) (force : Bool) (h : String) :
    (alookup (build_hash_index lib prev force) h).isSome = true ↔
      h ∈ observedHashes lib := by
  unfold build_hash_index
  rw [alookup_filter_key]
  by_cases hc : (hashScan lib (if force then [] else prev) []).2.contains h = true
  · rw [if_pos hc]
    have hobs : h ∈ observedHashes lib := by
      have := (contains_iff_mem_str _ h).mp hc
      rcases (hashScan_found_mem lib _ [] h).mp this with hf | ho
      · exact absurd hf (by simp)
      · exact ho
    rw [hashScan_idx_isSome]
    simp [hobs]
  · rw [if_neg hc]
    simp only [Option.isSome_none, Bool.false_eq_true, false_iff]
    intro hobs
    apply hc
    rw [contains_iff_mem_str, hashScan_found_mem]
    exact Or.inr hobs

/-- C7: rebuilding the duplicate index over an unchanged library is
idempotent — a second rebuild from the first rebuild's persisted result keeps
exactly the same set of hashes — and every entry whose hash was not observed
during the walk is removed from the index. -/
theorem C7_rebuild_idempotent_prunes_stale (lib : List LibFile)
    (prev : List (String × String)) (f1 f2 : Bool) :
    (∀ h : String,
      (alookup (build_hash_index lib (build_hash_index lib prev f1) f2) h).isSome = true ↔
      (alookup (build_hash_index lib prev f1) h).isSome = true) ∧
    (∀ h : String, h ∉ observedHashes lib →
      alookup (build_hash_index lib prev f1) h = none) := by
  constructor
  · intro h
    rw [build_hash_index_isSome, build_hash_index_isSome]
  · intro h hobs
    rcases hl : alookup (build_hash_index lib prev f1) h with _ | v
    · rfl
    · exfalso
      apply hobs
      rw [← build_hash_index_isSome lib prev f1 h, hl]
      rfl

/-- Witness for C7 on a one-file library with a stale previous entry: the
stale hash is pruned, the live hash is indexed, and a second rebuild agrees. -/
theorem C7_rebuild_idempotent_prunes_stale_witness :
    alookup (build_hash_index [⟨["10-19 Finance", "14 Receipts", "a.pdf"], "h1"⟩]
      [("stale", "old/path.pdf")] false) "stale" = none ∧
    (alookup (build_hash_index [⟨["10-19 Finance", "14 Receipts", "a.pdf"], "h1"⟩]
      (build_hash_index [⟨["10-19 Finance", "14 Receipts", "a.pdf"], "h1"⟩]
        [("stale", "old/path.pdf")] false) false) "h1").isSome = true := by
  have h := C7_rebuild_idempotent_prunes_stale
    [⟨["10-19 Finance", "14 Receipts", "a.pdf"], "h1"⟩]
    [("stale", "old/path.pdf")] false false
  refine ⟨h.2 "stale" (by decide), ?_⟩
  rw [(h.1 "h1")]
  decide

/-- C9: the generated filename for identifier "14.01", issuer "Amazon", type
"Laptop Receipt", year "2024" and original name "scan.pdf" starts with
"14.01", contains "Amazon", contains "2024", and ends with ".pdf". -/
theorem C9_filename_round_trip :
    pyStartsWith (generate_filename "scan.pdf"
      { issuer := some "Amazon", document_type := some "Laptop Receipt" }
      "14.01" "2024" "2025") "14.01" = true ∧
    pyContains (generate_filename "scan.pdf"
      { issuer := some "Amazon", document_type := some "Laptop Receipt" }
      "14.01" "2024" "2025") "Amazon" = true ∧
    pyContains (generate_filename "scan.pdf"
      { issuer := some "Amazon", document_type := some "Laptop Receipt" }
      "14.01" "2024" "2025") "2024" = true ∧
    pyEndsWith (generate_filename "scan.pdf"
      { issuer := some "Amazon", document_type := some "Laptop Receipt" }
      "14.01" "2024" "2025") ".pdf" = true := by decide
